import Mathlib

/-!
# Drv::SocketReadTask — the socket read loop and its retry policy

A shallow embedding of `Drv/Ip/SocketReadTask.cpp`.

The class talks to collaborators whose code lives elsewhere (the socket
handler, the task service, the mutex, the buffer hooks, the logger).  Every
call into a collaborator is a `Call`; an `Env` answers calls and says how the
state changes while the call runs.  The state handed to the environment is the
whole object, member flags included, because other threads hold a reference to
the object and `stopSocketTask` writes `m_stop` from such a thread: a call may
return with the flag changed.

Every run records its calls, in order, each with the value `m_stop` had when
the call returned.  The `printf` lines of `readTask` only write debugging
text to standard output and are left out.  The loop need not end, so a run is
given a bound on the number of passes through the loop body.
-/

namespace Drv

/-! ## Data -/

/-- Modelled from the spec: the enum `SocketIpStatus` is declared in
`Drv/Ip/IpSocket.hpp`, which is not part of the sources.  The read task names
two enumerators; any other enumerator is `SOCK_OTHER code`. -/
inductive SocketIpStatus where
  | SOCK_SUCCESS
  | SOCK_INTERRUPTED_TRY_AGAIN
  | SOCK_OTHER (code : Nat)
  deriving DecidableEq, Repr

/-- Modelled from the spec: `Os::Task::TaskStatus` is declared in
`Os/Task.hpp`, which is not part of the sources.  The code names `TASK_OK`;
any other enumerator is `TASK_OTHER code`. -/
inductive TaskStatus where
  | TASK_OK
  | TASK_OTHER (code : Nat)
  deriving DecidableEq, Repr

/-- Modelled from the spec: `Fw::Buffer` is declared in `Fw/Buffer/Buffer.hpp`,
which is not part of the sources.  A leased byte region with a mutable size:
`data` is the address of the region (0 is the null pointer) and `size` the
U32 that `getSize` reads and `setSize` writes. -/
structure Buffer where
  data : Nat
  size : Nat
  deriving DecidableEq, Repr

/-- The accessor `Fw::Buffer::getData`. -/
def Buffer.getData (b : Buffer) : Nat := b.data

/-- The accessor `Fw::Buffer::getSize`. -/
def Buffer.getSize (b : Buffer) : Nat := b.size

/-- The mutator `Fw::Buffer::setSize`. -/
def Buffer.setSize (b : Buffer) (n : Nat) : Buffer := { b with size := n }

/-- The messages the class hands to `Fw::Logger::logMsg`, with their
arguments. -/
inductive LogMsg where
  /-- `"[WARNING] Failed to open port with status %d and errno %d\n"` -/
  | failedToOpenPort (status : SocketIpStatus) (errno : Int)
  /-- `"[WARNING] Failed to recv from port with status %d and errno %d and stop %d\n"` -/
  | failedToRecv (status : SocketIpStatus) (errno : Int) (stop : Bool)
  /-- `strerror(errno)` -/
  | strerror (errno : Int)
  /-- `"\n"` -/
  | newline
  /-- `"SocketReadTask::shutdown\n"` -/
  | shutdownCalled
  /-- `"SocketReadTask::close\n"` -/
  | closeCalled
  deriving DecidableEq, Repr

/-- The routine handed to the task service as the entry point of a task. -/
inductive TaskRoutine where
  | readTask
  | otherRoutine (id : Nat)
  deriving DecidableEq, Repr

/-- The calls the class makes into its collaborators, indexed by the type of
the answer. -/
inductive Call : Type → Type where
  /-- `m_task_lock.lock()` -/
  | lock : Call Unit
  /-- `m_task_lock.unlock()` -/
  | unlock : Call Unit
  /-- `getSocketHandler().isStarted()` -/
  | isStarted : Call Bool
  /-- `getSocketHandler().isOpened()` -/
  | isOpened : Call Bool
  /-- `getSocketHandler().startup(reuse_address)` -/
  | startup (reuse_address : Bool) : Call SocketIpStatus
  /-- `getSocketHandler().open(reuse_address)` -/
  | openSocket (reuse_address : Bool) : Call SocketIpStatus
  /-- `getSocketHandler().recv(data, size)`; `size` is passed by reference and
  the answer carries the value the handler left in it. -/
  | recv (data : Nat) (size : Nat) : Call (SocketIpStatus × Nat)
  /-- `getSocketHandler().close()` -/
  | close : Call Unit
  /-- `getSocketHandler().shutdown()` -/
  | shutdown : Call Unit
  /-- The hook `connected()`. -/
  | connected : Call Unit
  /-- The hook `getBuffer()`. -/
  | getBuffer : Call Buffer
  /-- The hook `sendBuffer(buffer, status)`. -/
  | sendBuffer (buffer : Buffer) (status : SocketIpStatus) : Call Unit
  /-- `Os::Task::delay(ms)`; the caller discards the status it returns. -/
  | delay (ms : Nat) : Call Unit
  /-- `Fw::Logger::logMsg(...)` -/
  | logMsg (msg : LogMsg) : Call Unit
  /-- `m_task.isStarted()` -/
  | taskIsStarted : Call Bool
  /-- `m_task.start(name, routine, this, priority, stack, cpuAffinity)`;
  `argIsThis` says that the argument handed to the routine is this object. -/
  | taskStart (name : String) (routine : TaskRoutine) (argIsThis : Bool)
      (priority stack cpuAffinity : Nat) : Call TaskStatus
  /-- `m_task.join(value_ptr)` -/
  | taskJoin (value_ptr : Nat) : Call TaskStatus

/-- One recorded call: what was called and what it answered. -/
inductive Event where
  | lock
  | unlock
  | isStarted (answer : Bool)
  | isOpened (answer : Bool)
  | startup (reuse_address : Bool) (answer : SocketIpStatus)
  | openSocket (reuse_address : Bool) (answer : SocketIpStatus)
  | recv (data : Nat) (size : Nat) (answer : SocketIpStatus) (received : Nat)
  | close
  | shutdown
  | connected
  | getBuffer (answer : Buffer)
  | sendBuffer (buffer : Buffer) (status : SocketIpStatus)
  | delay (ms : Nat)
  | logMsg (msg : LogMsg)
  | taskIsStarted (answer : Bool)
  | taskStart (name : String) (routine : TaskRoutine) (argIsThis : Bool)
      (priority stack cpuAffinity : Nat) (answer : TaskStatus)
  | taskJoin (value_ptr : Nat) (answer : TaskStatus)
  deriving DecidableEq, Repr

/-- The record of a call and its answer. -/
def Call.event : {α : Type} → Call α → α → Event
  | _, .lock, _ => .lock
  | _, .unlock, _ => .unlock
  | _, .isStarted, b => .isStarted b
  | _, .isOpened, b => .isOpened b
  | _, .startup r, st => .startup r st
  | _, .openSocket r, st => .openSocket r st
  | _, .recv d n, a => .recv d n a.1 a.2
  | _, .close, _ => .close
  | _, .shutdown, _ => .shutdown
  | _, .connected, _ => .connected
  | _, .getBuffer, b => .getBuffer b
  | _, .sendBuffer b st, _ => .sendBuffer b st
  | _, .delay ms, _ => .delay ms
  | _, .logMsg m, _ => .logMsg m
  | _, .taskIsStarted, b => .taskIsStarted b
  | _, .taskStart n r a p s c, st => .taskStart n r a p s c st
  | _, .taskJoin v, st => .taskJoin v st

/-- The object: the member flags of `SocketReadTask` and, in `ext`, everything
the class reaches only through calls (handler, task, mutex, buffers). -/
structure SocketReadTask (σ : Type) where
  m_reconnect : Bool
  m_reuse_address : Bool
  m_stop : Bool
  ext : σ

/-- The collaborators.  `call` answers a call and gives the state in which the
call returns; `errno` is the C library's error number as the worker reads it;
`SOCKET_RETRY_INTERVAL_MS` is the configuration constant of `IpCfg.hpp`, which
is not part of the sources. -/
structure Env (σ : Type) where
  call : {α : Type} → Call α → SocketReadTask σ → α × SocketReadTask σ
  errno : SocketReadTask σ → Int
  SOCKET_RETRY_INTERVAL_MS : Nat

/-- One entry of a run's record: the call, and `m_stop` as the call returned. -/
structure Step where
  ev : Event
  stop : Bool
  deriving DecidableEq, Repr

/-- The worker's view while it runs: the object and the record so far. -/
structure Ctx (σ : Type) where
  self : SocketReadTask σ
  trace : List Step

/-- Make a call: ask the environment, continue in the state it returns, and
record the call with the value of `m_stop` at its return. -/
def perform {σ α : Type} (E : Env σ) (c : Call α) (x : Ctx σ) : α × Ctx σ :=
  let r := E.call c x.self
  (r.1, { self := r.2, trace := x.trace ++ [{ ev := c.event r.1, stop := r.2.m_stop }] })

/-! ## The member functions -/

/-- The constructor `SocketReadTask::SocketReadTask()`: `m_reconnect(false)`,
`m_stop(false)`; `m_reuse_address` has no initialiser, so the object comes up
with whatever value `reuse_address` the memory held. -/
def SocketReadTask.new {σ : Type} (reuse_address : Bool) (ext : σ) : SocketReadTask σ :=
  { m_reconnect := false, m_reuse_address := reuse_address, m_stop := false, ext := ext }

/-- What a member function with fatal assertions leaves behind: whether an
assertion failed, and the context at that point or at the return. -/
structure Asserted (σ : Type) where
  assertFailed : Bool
  ctx : Ctx σ

/-- The member `SocketReadTask::startSocketTask`: assert that the task is not
started and that `m_stop` is not set, store the two flags, start the task on
`readTask` with `this` as its argument, and assert that the start answered
`TASK_OK`. -/
def SocketReadTask.startSocketTask {σ : Type} (E : Env σ) (name : String)
    (reconnect reuse_address : Bool) (priority stack cpuAffinity : Nat) (x : Ctx σ) :
    Asserted σ :=
  let r1 := perform E .taskIsStarted x
  if r1.1 = true then
    { assertFailed := true, ctx := r1.2 }
  else if r1.2.self.m_stop = true then
    { assertFailed := true, ctx := r1.2 }
  else
    let x1 : Ctx σ := { r1.2 with self := { r1.2.self with m_reconnect := reconnect } }
    let x2 : Ctx σ := { x1 with self := { x1.self with m_reuse_address := reuse_address } }
    let r2 := perform E (.taskStart name .readTask true priority stack cpuAffinity) x2
    if r2.1 = .TASK_OK then
      { assertFailed := false, ctx := r2.2 }
    else
      { assertFailed := true, ctx := r2.2 }

/-- The member `SocketReadTask::startup`. -/
def SocketReadTask.startup {σ : Type} (E : Env σ) (reuse_address : Bool) (x : Ctx σ) :
    SocketIpStatus × Ctx σ :=
  perform E (.startup reuse_address) x

/-- The member `SocketReadTask::open`: the handler's `open`, and `connected()`
any time the open is successful. -/
def SocketReadTask.open {σ : Type} (E : Env σ) (reuse_address : Bool) (x : Ctx σ) :
    SocketIpStatus × Ctx σ :=
  let r := perform E (.openSocket reuse_address) x
  if r.1 = .SOCK_SUCCESS then
    (r.1, (perform E .connected r.2).2)
  else
    (r.1, r.2)

/-- The member `SocketReadTask::shutdown`. -/
def SocketReadTask.shutdown {σ : Type} (E : Env σ) (x : Ctx σ) : Ctx σ :=
  (perform E .shutdown (perform E (.logMsg .shutdownCalled) x).2).2

/-- The member `SocketReadTask::close`. -/
def SocketReadTask.close {σ : Type} (E : Env σ) (x : Ctx σ) : Ctx σ :=
  (perform E .close (perform E (.logMsg .closeCalled) x).2).2

/-- The member `SocketReadTask::joinSocketTask`. -/
def SocketReadTask.joinSocketTask {σ : Type} (E : Env σ) (value_ptr : Nat) (x : Ctx σ) :
    TaskStatus × Ctx σ :=
  perform E (.taskJoin value_ptr) x

/-- The member `SocketReadTask::stopSocketTask`: set the flag, then shut the
handler down. -/
def SocketReadTask.stopSocketTask {σ : Type} (E : Env σ) (x : Ctx σ) : Ctx σ :=
  (perform E .shutdown { x with self := { x.self with m_stop := true } }).2

/-! ## The read loop -/

/-- How one pass through the loop body ended. -/
inductive Flow where
  /-- The body ran to its closing brace. -/
  | fellThrough
  /-- A `continue` after a failed `startup` or `open`. -/
  | continued
  /-- The assertion `FW_ASSERT(data)` failed. -/
  | assertFailed
  deriving DecidableEq, Repr

/-- What a stretch of the loop body leaves behind: how it ended, the local
`status`, the object, and the record of the calls it made. -/
structure Iter (σ : Type) where
  flow : Flow
  status : SocketIpStatus
  self : SocketReadTask σ
  trace : List Step

/-- Lines 82-92 of `readTask`: start up if not started and not stopped; on a
status other than success warn, delay, unlock and `continue`.  `status` is the
local of that name as the statement begins. -/
def startupStage {σ : Type} (E : Env σ) (status : SocketIpStatus) (s : SocketReadTask σ) :
    Iter σ :=
  let r1 := perform E .isStarted { self := s, trace := [] }
  if r1.1 = false ∧ r1.2.self.m_stop = false then
    let r2 := SocketReadTask.startup E r1.2.self.m_reuse_address r1.2
    let status := r2.1
    if status ≠ .SOCK_SUCCESS then
      let x1 := (perform E (.logMsg (.failedToOpenPort status (E.errno r2.2.self))) r2.2).2
      let x2 := (perform E (.delay E.SOCKET_RETRY_INTERVAL_MS) x1).2
      let x3 := (perform E .unlock x2).2
      { flow := .continued, status := status, self := x3.self, trace := x3.trace }
    else
      { flow := .fellThrough, status := status, self := r2.2.self, trace := r2.2.trace }
  else
    { flow := .fellThrough, status := status, self := r1.2.self, trace := r1.2.trace }

/-- Lines 96-106 of `readTask`: open if not opened and not stopped; on a
status other than success warn, delay, unlock and `continue`. -/
def openStage {σ : Type} (E : Env σ) (status : SocketIpStatus) (s : SocketReadTask σ) :
    Iter σ :=
  let r1 := perform E .isOpened { self := s, trace := [] }
  if r1.1 = false ∧ r1.2.self.m_stop = false then
    let r2 := SocketReadTask.open E r1.2.self.m_reuse_address r1.2
    let status := r2.1
    if status ≠ .SOCK_SUCCESS then
      let x1 := (perform E (.logMsg (.failedToOpenPort status (E.errno r2.2.self))) r2.2).2
      let x2 := (perform E (.delay E.SOCKET_RETRY_INTERVAL_MS) x1).2
      let x3 := (perform E .unlock x2).2
      { flow := .continued, status := status, self := x3.self, trace := x3.trace }
    else
      { flow := .fellThrough, status := status, self := r2.2.self, trace := r2.2.trace }
  else
    { flow := .fellThrough, status := status, self := r1.2.self, trace := r1.2.trace }

/-- Lines 110-133 of `readTask`: if started, opened and not stopped, get a
buffer, assert its data pointer, receive into it, and send it on; a status
that is neither success nor interrupted is logged, closes the handler and
sets the size to zero first. -/
def readStage {σ : Type} (E : Env σ) (status : SocketIpStatus) (s : SocketReadTask σ) :
    Iter σ :=
  let r1 := perform E .isStarted { self := s, trace := [] }
  if r1.1 = true then
    let r2 := perform E .isOpened r1.2
    if r2.1 = true ∧ r2.2.self.m_stop = false then
      let rb := perform E .getBuffer r2.2
      let buffer := rb.1
      let data := buffer.getData
      if data = 0 then
        { flow := .assertFailed, status := status, self := rb.2.self, trace := rb.2.trace }
      else
        let size := buffer.getSize
        let rr := perform E (.recv data size) rb.2
        let status := rr.1.1
        let size := rr.1.2
        if status ≠ .SOCK_SUCCESS ∧ status ≠ .SOCK_INTERRUPTED_TRY_AGAIN then
          let x1 := (perform E (.logMsg (.failedToRecv status (E.errno rr.2.self)
                      rr.2.self.m_stop)) rr.2).2
          let x2 := (perform E (.logMsg (.strerror (E.errno x1.self))) x1).2
          let x3 := (perform E (.logMsg .newline) x2).2
          let x4 := (perform E .close x3).2
          let buffer := buffer.setSize 0
          let x5 := (perform E (.sendBuffer buffer status) x4).2
          { flow := .fellThrough, status := status, self := x5.self, trace := x5.trace }
        else
          let buffer := buffer.setSize size
          let x1 := (perform E (.sendBuffer buffer status) rr.2).2
          { flow := .fellThrough, status := status, self := x1.self, trace := x1.trace }
    else
      { flow := .fellThrough, status := status, self := r2.2.self, trace := r2.2.trace }
  else
    { flow := .fellThrough, status := status, self := r1.2.self, trace := r1.2.trace }

/-- Lines 79-134 of `readTask`, one pass through the body of the `do` loop:
lock, the three stages in order unless one of the first two ends in
`continue` or the assertion fails, unlock.  `status` is the local of that
name as the pass begins. -/
def iteration {σ : Type} (E : Env σ) (status : SocketIpStatus) (s : SocketReadTask σ) : Iter σ :=
  let x0 := (perform E .lock { self := s, trace := [] }).2
  let a := startupStage E status x0.self
  if a.flow ≠ .fellThrough then
    { a with trace := x0.trace ++ a.trace }
  else
    let b := openStage E a.status a.self
    if b.flow ≠ .fellThrough then
      { b with trace := x0.trace ++ a.trace ++ b.trace }
    else
      let c := readStage E b.status b.self
      if c.flow ≠ .fellThrough then
        { c with trace := x0.trace ++ a.trace ++ b.trace ++ c.trace }
      else
        let x1 := (perform E .unlock { self := c.self, trace := [] }).2
        { flow := .fellThrough, status := c.status, self := x1.self,
          trace := x0.trace ++ a.trace ++ b.trace ++ c.trace ++ x1.trace }

/-- The condition of the `do ... while` at lines 146-147: not told to stop,
and successful, interrupted or ordered to retry. -/
def keepReceiving {σ : Type} (s : SocketReadTask σ) (status : SocketIpStatus) : Bool :=
  !s.m_stop && (status == .SOCK_SUCCESS || status == .SOCK_INTERRUPTED_TRY_AGAIN || s.m_reconnect)

/-- How a run of `readTask` ended. -/
inductive Outcome where
  /-- The function returned. -/
  | returned
  /-- A fatal assertion stopped the worker. -/
  | assertFailed
  /-- The loop was still going when the bound on iterations was used up. -/
  | outOfFuel
  deriving DecidableEq, Repr

/-- A run of `readTask`: the record of its calls, the object as it left it,
the local `status`, and how the run ended. -/
structure Run (σ : Type) where
  trace : List Step
  self : SocketReadTask σ
  status : SocketIpStatus
  outcome : Outcome

/-- The `do ... while` loop of `readTask` followed by the final handler
shutdown (lines 78-148), for at most `fuel` passes through the body. -/
def readLoop {σ : Type} (E : Env σ) : Nat → SocketIpStatus → SocketReadTask σ → Run σ
  | 0, status, s => { trace := [], self := s, status := status, outcome := .outOfFuel }
  | fuel + 1, status, s =>
    let it := iteration E status s
    if it.flow = .assertFailed then
      { trace := it.trace, self := it.self, status := it.status, outcome := .assertFailed }
    else if keepReceiving it.self it.status = true then
      let r := readLoop E fuel it.status it.self
      { r with trace := it.trace ++ r.trace }
    else
      let x := (perform E .shutdown { self := it.self, trace := [] }).2
      { trace := it.trace ++ x.trace, self := x.self, status := it.status,
        outcome := .returned }

/-- The static member `SocketReadTask::readTask(void* pointer)`: assert the
pointer, start with `status = SOCK_SUCCESS`, loop, shut the handler down.
`none` is the null pointer; with it nothing is there to run on, and the run
reports no object (`none`). -/
def readTask {σ : Type} (E : Env σ) (fuel : Nat) (pointer : Option (SocketReadTask σ)) :
    Option (Run σ) :=
  match pointer with
  | none => none
  | some self => some (readLoop E fuel .SOCK_SUCCESS self)

/-! ## Reading a run's record -/

/-- The calls of a record, without the `m_stop` snapshots. -/
def events (t : List Step) : List Event := t.map Step.ev

/-- The status a stage of the loop answered: some for the handler's `startup`,
`open` and `recv`, none for every other call. -/
def Event.stageStatus : Event → Option SocketIpStatus
  | .startup _ st => some st
  | .openSocket _ st => some st
  | .recv _ _ st _ => some st
  | _ => none

/-- A stage attempt: a call of the handler's `startup`, `open` or `recv`. -/
def Event.isStage (e : Event) : Bool := e.stageStatus.isSome

/-- A status that is neither success nor interrupted-try-again. -/
def hardFailure (st : SocketIpStatus) : Prop :=
  st ≠ .SOCK_SUCCESS ∧ st ≠ .SOCK_INTERRUPTED_TRY_AGAIN

instance (st : SocketIpStatus) : Decidable (hardFailure st) := by
  unfold hardFailure; infer_instance

/-- A call of the hook `sendBuffer`. -/
def Event.isSend : Event → Bool
  | .sendBuffer _ _ => true
  | _ => false

/-- A call of `Os::Task::delay`. -/
def Event.isDelay : Event → Bool
  | .delay _ => true
  | _ => false

/-- A call of `Fw::Logger::logMsg`. -/
def Event.isLog : Event → Bool
  | .logMsg _ => true
  | _ => false

/-- What a pass through the body may do before it reads or before an attempt
fails: lock, query the handler, start up with success, open with success,
call `connected()`. -/
def Event.isPrelude : Event → Bool
  | .lock => true
  | .isStarted _ => true
  | .isOpened _ => true
  | .connected => true
  | .startup _ st => decide (st = .SOCK_SUCCESS)
  | .openSocket _ st => decide (st = .SOCK_SUCCESS)
  | _ => false

/-- A `startup` or `open` of the handler answered with a hard failure. -/
def Event.isHardStartupOrOpen : Event → Bool
  | .startup _ st => decide (hardFailure st)
  | .openSocket _ st => decide (hardFailure st)
  | _ => false

/-- A call of the handler's `recv` answered with a hard failure. -/
def Event.isHardRecv : Event → Bool
  | .recv _ _ st _ => decide (hardFailure st)
  | _ => false

/-- What follows a failed attempt `e` begins with the warning for its status,
the delay of `ms` milliseconds and the unlock. -/
def backoffFollows (ms : Nat) (e : Event) (post : List Event) : Prop :=
  ∃ st en post', e.stageStatus = some st ∧
    post = .logMsg (.failedToOpenPort st en) :: .delay ms :: .unlock :: post'

/-- In the record `l`, every call that satisfies `p` is followed by calls
that satisfy `q`. -/
def FollowedBy (p : Event → Bool) (q : Event → List Event → Prop) (l : List Event) : Prop :=
  ∀ pre e post, l = pre ++ e :: post → p e = true → q e post

/-- In the record `l`, every call that satisfies `p` comes after calls that
satisfy `q`. -/
def PrecededBy (p : Event → Bool) (q : Event → List Event → Prop) (l : List Event) : Prop :=
  ∀ pre e post, l = pre ++ e :: post → p e = true → q e pre

/-- An `open` of the handler answered success. -/
def Event.isOpenSuccess : Event → Bool
  | .openSocket _ st => decide (st = .SOCK_SUCCESS)
  | _ => false

/-- An `open` of the handler, whatever it answered. -/
def Event.isOpen : Event → Bool
  | .openSocket _ _ => true
  | _ => false

/-- A call of the hook `connected()`. -/
def Event.isConnected : Event → Bool
  | .connected => true
  | _ => false

/-- The stretches the record of a pass is made of: the lock, the unlock, and
the ways each of the three stages can go.  `ms` is the retry interval. -/
inductive Piece (ms : Nat) : List Event → Prop where
  | lock : Piece ms [.lock]
  | unlock : Piece ms [.unlock]
  | startupSkipped (b : Bool) : Piece ms [.isStarted b]
  | startupDone (r : Bool) : Piece ms [.isStarted false, .startup r .SOCK_SUCCESS]
  | startupFailed (r : Bool) (st : SocketIpStatus) (en : Int) : st ≠ .SOCK_SUCCESS →
      Piece ms [.isStarted false, .startup r st, .logMsg (.failedToOpenPort st en),
        .delay ms, .unlock]
  | openSkipped (b : Bool) : Piece ms [.isOpened b]
  | openDone (r : Bool) : Piece ms [.isOpened false, .openSocket r .SOCK_SUCCESS, .connected]
  | openFailed (r : Bool) (st : SocketIpStatus) (en : Int) : st ≠ .SOCK_SUCCESS →
      Piece ms [.isOpened false, .openSocket r st, .logMsg (.failedToOpenPort st en),
        .delay ms, .unlock]
  | notOpened (b : Bool) : Piece ms [.isStarted true, .isOpened b]
  | noData (b : Buffer) : b.getData = 0 →
      Piece ms [.isStarted true, .isOpened true, .getBuffer b]
  | recvFailed (b : Buffer) (st : SocketIpStatus) (n : Nat) (en1 en2 : Int) (stop : Bool) :
      b.getData ≠ 0 → hardFailure st →
      Piece ms [.isStarted true, .isOpened true, .getBuffer b,
        .recv b.getData b.getSize st n, .logMsg (.failedToRecv st en1 stop),
        .logMsg (.strerror en2), .logMsg .newline, .close, .sendBuffer (b.setSize 0) st]
  | recvDone (b : Buffer) (st : SocketIpStatus) (n : Nat) :
      b.getData ≠ 0 → ¬ hardFailure st →
      Piece ms [.isStarted true, .isOpened true, .getBuffer b,
        .recv b.getData b.getSize st n, .sendBuffer (b.setSize n) st]

/-- A call of the handler's `recv`. -/
def Event.isRecv : Event → Bool
  | .recv _ _ _ _ => true
  | _ => false

/-- A call of the handler's `startup`. -/
def Event.isStartup : Event → Bool
  | .startup _ _ => true
  | _ => false

/-- A call of the hook `getBuffer`. -/
def Event.isGetBuffer : Event → Bool
  | .getBuffer _ => true
  | _ => false

/-- The stop flag is never cleared: a call entered with `m_stop` true returns
with `m_stop` true.  (The class writes `m_stop` in two places only, the
constructor's `m_stop(false)` and `stopSocketTask`'s `m_stop = true`.) -/
def StopLatched {σ : Type} (E : Env σ) : Prop :=
  ∀ {α : Type} (c : Call α) (s : SocketReadTask σ),
    s.m_stop = true → (E.call c s).2.m_stop = true

/-- Calls that leave a buffer lease as it is and stay within the pass: not a
`getBuffer`, not a `sendBuffer`, not a `lock`, not an `unlock`. -/
def Event.keepsLease : Event → Bool
  | .getBuffer _ => false
  | .sendBuffer _ _ => false
  | .lock => false
  | .unlock => false
  | _ => true

/-- What follows the acquisition `e` holds the delivery of the acquired
buffer, with some size set, before any other acquisition or delivery and
before the pass ends. -/
def deliveryFollows (e : Event) (post : List Event) : Prop :=
  ∃ b mid k st post', e = .getBuffer b ∧ post = mid ++ .sendBuffer (b.setSize k) st :: post' ∧
    ∀ x ∈ mid, x.keepsLease = true

/-- What precedes the delivery `e` holds the acquisition of the delivered
buffer, with no other acquisition or delivery since and within the same
pass. -/
def acquisitionPrecedes (e : Event) (pre : List Event) : Prop :=
  ∃ b mid k st pre', e = .sendBuffer (b.setSize k) st ∧ pre = pre' ++ .getBuffer b :: mid ∧
    ∀ x ∈ mid, x.keepsLease = true

/-- Every acquired buffer of the record has a data pointer that is not null. -/
def AllData (l : List Event) : Prop := ∀ b, Event.getBuffer b ∈ l → b.getData ≠ 0

/-- A call of the hook `connected()` or of the hook `sendBuffer`. -/
def Event.isConnectedOrSend (e : Event) : Bool := e.isConnected || e.isSend

/-- Before the call, the lock of the pass was taken and has not been released
since: what precedes holds a `lock` with no `unlock` and no further `lock`
after it. -/
def lockHeld (_e : Event) (pre : List Event) : Prop :=
  ∃ pre' mid, pre = pre' ++ .lock :: mid ∧ Event.unlock ∉ mid ∧ Event.lock ∉ mid

/-- A call that acquires a buffer or receives into one. -/
def Event.isRead (e : Event) : Bool := e.isGetBuffer || e.isRecv

/-- The place of a stage in the loop body: `startup` first, `open` second,
`recv` third. -/
def Event.stageRank : Event → Nat
  | .startup _ _ => 0
  | .openSocket _ _ => 1
  | .recv _ _ _ _ => 2
  | _ => 3

/-- Two stage attempts in a row within a pass: the second belongs to a later
stage and the first answered success. -/
def stageOrder (a b : Event) : Prop :=
  a.stageRank < b.stageRank ∧ a.stageStatus = some .SOCK_SUCCESS

/-- Follow the lock through a record.  `held` says whether `m_task_lock` is
held before the record; the result is none if the record locks the held lock
or unlocks the lock that is not held, and otherwise says whether the lock is
held after the record. -/
def lockTrack : Bool → List Event → Option Bool
  | held, [] => some held
  | held, .lock :: l => if held then none else lockTrack true l
  | held, .unlock :: l => if held then lockTrack false l else none
  | held, _ :: l => lockTrack held l

/-- A call of `m_task_lock.lock()`. -/
def Event.isLock : Event → Bool
  | .lock => true
  | _ => false

/-- A call of `m_task_lock.unlock()`. -/
def Event.isUnlock : Event → Bool
  | .unlock => true
  | _ => false

/-- What a pass may do before a failed `startup` or `open`: lock, query the
handler, start up with success. -/
def Event.isBeforeAttempt : Event → Bool
  | .lock => true
  | .isStarted _ => true
  | .isOpened _ => true
  | .startup _ st => decide (st = .SOCK_SUCCESS)
  | _ => false

/-! ## A scripted environment

A concrete environment to run the loop on: a handler that keeps the two
readiness flags and answers `startup`, `open` and `recv` from scripts, a buffer
hook that hands out one fixed buffer, and another thread that calls
`stopSocketTask` while a chosen call of the worker is in flight. -/

/-- The state behind the scripted environment. -/
structure Script where
  /-- What the handler's `isStarted()` reports. -/
  started : Bool
  /-- What the handler's `isOpened()` reports. -/
  opened : Bool
  /-- The answers of the coming `startup` calls; success once used up. -/
  startups : List SocketIpStatus
  /-- The answers of the coming `open` calls; success once used up. -/
  opens : List SocketIpStatus
  /-- The answers of the coming `recv` calls with the byte counts they report;
  interrupted-try-again with the size untouched once used up. -/
  recvs : List (SocketIpStatus × Nat)
  /-- The buffer `getBuffer` hands out. -/
  buffer : Buffer
  /-- When `some n`: another thread runs `stopSocketTask` during the worker's
  call number `n` from now (0 is the next call). -/
  stopIn : Option Nat
  deriving DecidableEq, Repr

/-- The scripted answer of a call and the handler state it leaves, before the
other thread is taken into account. -/
def Script.answer : {α : Type} → Call α → Script → α × Script
  | _, .lock, w => ((), w)
  | _, .unlock, w => ((), w)
  | _, .isStarted, w => (w.started, w)
  | _, .isOpened, w => (w.opened, w)
  | _, .startup _, w =>
    match w.startups with
    | [] => (.SOCK_SUCCESS, { w with started := true })
    | st :: rest =>
      (st, { w with startups := rest, started := w.started || decide (st = .SOCK_SUCCESS) })
  | _, .openSocket _, w =>
    match w.opens with
    | [] => (.SOCK_SUCCESS, { w with opened := true })
    | st :: rest =>
      (st, { w with opens := rest, opened := w.opened || decide (st = .SOCK_SUCCESS) })
  | _, .recv _ size, w =>
    match w.recvs with
    | [] => ((.SOCK_INTERRUPTED_TRY_AGAIN, size), w)
    | a :: rest => (a, { w with recvs := rest })
  | _, .close, w => ((), { w with opened := false })
  | _, .shutdown, w => ((), { w with started := false, opened := false })
  | _, .connected, w => ((), w)
  | _, .getBuffer, w => (w.buffer, w)
  | _, .sendBuffer _ _, w => ((), w)
  | _, .delay _, w => ((), w)
  | _, .logMsg _, w => ((), w)
  | _, .taskIsStarted, w => (false, w)
  | _, .taskStart _ _ _ _ _ _, w => (.TASK_OK, w)
  | _, .taskJoin _, w => (.TASK_OK, w)

/-- The other thread: when its moment has come it sets `m_stop` and shuts the
handler down, as `stopSocketTask` does. -/
def Script.otherThread (s : SocketReadTask Script) : SocketReadTask Script :=
  match s.ext.stopIn with
  | none => s
  | some 0 =>
    { s with m_stop := true,
             ext := { s.ext with started := false, opened := false, stopIn := none } }
  | some (n + 1) => { s with ext := { s.ext with stopIn := some n } }

/-- The scripted environment: retry interval 1000 ms, `errno` always 0. -/
def scripted : Env Script where
  call c s :=
    let r := Script.answer c s.ext
    (r.1, Script.otherThread { s with ext := r.2 })
  errno _ := 0
  SOCKET_RETRY_INTERVAL_MS := 1000

/-- A fresh object over a scripted handler that is neither started nor
opened, with a 1024-byte buffer at a non-null address. -/
def Script.fresh (reconnect : Bool) (startups opens : List SocketIpStatus)
    (recvs : List (SocketIpStatus × Nat)) (stopIn : Option Nat) : SocketReadTask Script :=
  { m_reconnect := reconnect, m_reuse_address := false, m_stop := false,
    ext := { started := false, opened := false, startups := startups, opens := opens,
             recvs := recvs, buffer := { data := 4096, size := 1024 }, stopIn := stopIn } }

/-! ## The shapes of the stages -/

theorem events_append (t u : List Step) : events (t ++ u) = events t ++ events u := by
  simp [events]

theorem events_nil : events [] = [] := rfl

theorem events_cons (e : Step) (t : List Step) : events (e :: t) = e.ev :: events t := rfl

/-- The startup stage ends in one of three ways: the attempt is skipped, it
succeeds, or it fails and the stage ends in `continue`. -/
theorem startupStage_cases {σ : Type} (E : Env σ) (status : SocketIpStatus)
    (s : SocketReadTask σ) :
    ((startupStage E status s).flow = .fellThrough ∧ (startupStage E status s).status = status ∧
      ∃ b, events (startupStage E status s).trace = [.isStarted b]) ∨
    ((startupStage E status s).flow = .fellThrough ∧
      (startupStage E status s).status = .SOCK_SUCCESS ∧
      ∃ r, events (startupStage E status s).trace = [.isStarted false, .startup r .SOCK_SUCCESS]) ∨
    ((startupStage E status s).flow = .continued ∧
      (startupStage E status s).status ≠ .SOCK_SUCCESS ∧
      ∃ r en, events (startupStage E status s).trace =
        [.isStarted false, .startup r (startupStage E status s).status,
         .logMsg (.failedToOpenPort (startupStage E status s).status en),
         .delay E.SOCKET_RETRY_INTERVAL_MS, .unlock]) := by
  unfold startupStage
  simp only [SocketReadTask.startup, perform]
  split_ifs <;> simp_all [events, Call.event]

/-- The open stage ends in one of three ways: the attempt is skipped, it
succeeds and `connected()` follows, or it fails and the stage ends in
`continue`. -/
theorem openStage_cases {σ : Type} (E : Env σ) (status : SocketIpStatus)
    (s : SocketReadTask σ) :
    ((openStage E status s).flow = .fellThrough ∧ (openStage E status s).status = status ∧
      ∃ b, events (openStage E status s).trace = [.isOpened b]) ∨
    ((openStage E status s).flow = .fellThrough ∧
      (openStage E status s).status = .SOCK_SUCCESS ∧
      ∃ r, events (openStage E status s).trace =
        [.isOpened false, .openSocket r .SOCK_SUCCESS, .connected]) ∨
    ((openStage E status s).flow = .continued ∧
      (openStage E status s).status ≠ .SOCK_SUCCESS ∧
      ∃ r en, events (openStage E status s).trace =
        [.isOpened false, .openSocket r (openStage E status s).status,
         .logMsg (.failedToOpenPort (openStage E status s).status en),
         .delay E.SOCKET_RETRY_INTERVAL_MS, .unlock]) := by
  unfold openStage
  simp only [SocketReadTask.open, perform]
  split_ifs <;> simp_all [events, Call.event]

/-- The read stage ends in one of five ways: not started; started but not
opened or stopped; the buffer has no data and the assertion fails; `recv`
fails hard, the handler is closed and the buffer goes out with size zero;
`recv` succeeds or is interrupted and the buffer goes out with the size `recv`
left. -/
theorem readStage_cases {σ : Type} (E : Env σ) (status : SocketIpStatus)
    (s : SocketReadTask σ) :
    ((readStage E status s).flow = .fellThrough ∧ (readStage E status s).status = status ∧
      events (readStage E status s).trace = [.isStarted false]) ∨
    ((readStage E status s).flow = .fellThrough ∧ (readStage E status s).status = status ∧
      ∃ b, events (readStage E status s).trace = [.isStarted true, .isOpened b]) ∨
    ((readStage E status s).flow = .assertFailed ∧ (readStage E status s).status = status ∧
      ∃ b, b.getData = 0 ∧
        events (readStage E status s).trace = [.isStarted true, .isOpened true, .getBuffer b]) ∨
    ((readStage E status s).flow = .fellThrough ∧ hardFailure (readStage E status s).status ∧
      ∃ b n en1 en2 stop, b.getData ≠ 0 ∧ events (readStage E status s).trace =
        [.isStarted true, .isOpened true, .getBuffer b,
         .recv b.getData b.getSize (readStage E status s).status n,
         .logMsg (.failedToRecv (readStage E status s).status en1 stop),
         .logMsg (.strerror en2), .logMsg .newline, .close,
         .sendBuffer (b.setSize 0) (readStage E status s).status]) ∨
    ((readStage E status s).flow = .fellThrough ∧ ¬ hardFailure (readStage E status s).status ∧
      ∃ b n, b.getData ≠ 0 ∧ events (readStage E status s).trace =
        [.isStarted true, .isOpened true, .getBuffer b,
         .recv b.getData b.getSize (readStage E status s).status n,
         .sendBuffer (b.setSize n) (readStage E status s).status]) := by
  unfold readStage
  simp only [perform]
  split_ifs <;> simp_all [events, Call.event, hardFailure]
  · refine ⟨_, ?_, rfl, ?_⟩ <;> simp_all
  · refine ⟨_, ?_, rfl, ?_⟩ <;> simp_all

/-- The record of one pass through the loop body.  After a prelude of
queries and successful attempts the pass ends in one of six ways: a failed
`startup`, a failed `open`, nothing to read, a buffer without data, a hard
`recv` failure, a `recv` that succeeded or was interrupted. -/
theorem iteration_cases {σ : Type} (E : Env σ) (status : SocketIpStatus)
    (s : SocketReadTask σ) :
    ∃ pre : List Event, (∀ e ∈ pre, e.isPrelude = true) ∧
    (((iteration E status s).flow = .continued ∧
        (iteration E status s).status ≠ .SOCK_SUCCESS ∧
        ∃ r en, events (iteration E status s).trace =
          pre ++ [.startup r (iteration E status s).status,
            .logMsg (.failedToOpenPort (iteration E status s).status en),
            .delay E.SOCKET_RETRY_INTERVAL_MS, .unlock]) ∨
     ((iteration E status s).flow = .continued ∧
        (iteration E status s).status ≠ .SOCK_SUCCESS ∧
        ∃ r en, events (iteration E status s).trace =
          pre ++ [.isOpened false, .openSocket r (iteration E status s).status,
            .logMsg (.failedToOpenPort (iteration E status s).status en),
            .delay E.SOCKET_RETRY_INTERVAL_MS, .unlock]) ∨
     ((iteration E status s).flow = .fellThrough ∧
        events (iteration E status s).trace = pre ++ [.unlock]) ∨
     ((iteration E status s).flow = .assertFailed ∧
        ∃ b, b.getData = 0 ∧ events (iteration E status s).trace = pre ++ [.getBuffer b]) ∨
     ((iteration E status s).flow = .fellThrough ∧ hardFailure (iteration E status s).status ∧
        ∃ b n en1 en2 stop, b.getData ≠ 0 ∧ events (iteration E status s).trace =
          pre ++ [.getBuffer b,
            .recv b.getData b.getSize (iteration E status s).status n,
            .logMsg (.failedToRecv (iteration E status s).status en1 stop),
            .logMsg (.strerror en2), .logMsg .newline, .close,
            .sendBuffer (b.setSize 0) (iteration E status s).status, .unlock]) ∨
     ((iteration E status s).flow = .fellThrough ∧
        ¬ hardFailure (iteration E status s).status ∧
        ∃ b n, b.getData ≠ 0 ∧ events (iteration E status s).trace =
          pre ++ [.getBuffer b,
            .recv b.getData b.getSize (iteration E status s).status n,
            .sendBuffer (b.setSize n) (iteration E status s).status, .unlock])) := by
  unfold iteration
  simp only [perform]
  generalize (E.call Call.lock s).2 = s0
  have A := startupStage_cases E status s0
  generalize startupStage E status s0 = a at A ⊢
  have B := openStage_cases E a.status a.self
  generalize openStage E a.status a.self = b at B ⊢
  have C := readStage_cases E b.status b.self
  generalize readStage E b.status b.self = c at C ⊢
  have hA : a.flow = .fellThrough → ∀ e ∈ events a.trace, e.isPrelude = true := by
    intro h
    rcases A with ⟨_, _, b1, ht⟩ | ⟨_, _, r1, ht⟩ | ⟨hf, _⟩
    · simp [ht, Event.isPrelude]
    · simp [ht, Event.isPrelude]
    · simp [hf] at h
  have hB : b.flow = .fellThrough → ∀ e ∈ events b.trace, e.isPrelude = true := by
    intro h
    rcases B with ⟨_, _, b1, ht⟩ | ⟨_, _, r1, ht⟩ | ⟨hf, _⟩
    · simp [ht, Event.isPrelude]
    · simp [ht, Event.isPrelude]
    · simp [hf] at h
  by_cases ha : a.flow = .fellThrough
  swap
  · rcases A with ⟨hf, _⟩ | ⟨hf, _⟩ | ⟨hf, hs, r, en, ht⟩
    · exact absurd hf ha
    · exact absurd hf ha
    · refine ⟨[.lock, .isStarted false], by simp [Event.isPrelude], Or.inl ?_⟩
      simp [hf, hs, events_append, events_cons, events_nil, Call.event, ht]
  by_cases hb : b.flow = .fellThrough
  swap
  · rcases B with ⟨hf, _⟩ | ⟨hf, _⟩ | ⟨hf, hs, r, en, ht⟩
    · exact absurd hf hb
    · exact absurd hf hb
    · refine ⟨.lock :: events a.trace, ?_, Or.inr (Or.inl ?_)⟩
      · intro e he
        rcases List.mem_cons.mp he with rfl | he
        · rfl
        · exact hA ha e he
      · simp [ha, hf, hs, events_append, events_cons, events_nil, Call.event, ht]
  have hpre : ∀ l : List Event, (∀ e ∈ l, e.isPrelude = true) →
      ∀ e ∈ .lock :: (events a.trace ++ (events b.trace ++ l)), e.isPrelude = true := by
    intro l hl e he
    rcases List.mem_cons.mp he with rfl | he
    · rfl
    rcases List.mem_append.mp he with he | he
    · exact hA ha e he
    rcases List.mem_append.mp he with he | he
    · exact hB hb e he
    · exact hl e he
  rcases C with ⟨hf, hs, ht⟩ | ⟨hf, hs, b3, ht⟩ | ⟨hf, hs, b3, hb3, ht⟩ |
    ⟨hf, hs, b3, n3, en3, en4, stop3, hb3, ht⟩ | ⟨hf, hs, b3, n3, hb3, ht⟩
  · refine ⟨_, hpre [.isStarted false] (by simp [Event.isPrelude]),
      Or.inr (Or.inr (Or.inl ?_))⟩
    simp [ha, hb, hf, events_append, events_cons, events_nil, Call.event, ht]
  · refine ⟨_, hpre [.isStarted true, .isOpened b3] (by simp [Event.isPrelude]),
      Or.inr (Or.inr (Or.inl ?_))⟩
    simp [ha, hb, hf, events_append, events_cons, events_nil, Call.event, ht]
  · refine ⟨_, hpre [.isStarted true, .isOpened true] (by simp [Event.isPrelude]),
      Or.inr (Or.inr (Or.inr (Or.inl ?_)))⟩
    simp only [ha, hb, hf, ne_eq, not_true_eq_false, ite_false, reduceCtorEq, not_false_eq_true,
      ite_true, true_and]
    refine ⟨b3, hb3, ?_⟩
    simp [events_append, events_cons, events_nil, Call.event, ht]
  · refine ⟨_, hpre [.isStarted true, .isOpened true] (by simp [Event.isPrelude]),
      Or.inr (Or.inr (Or.inr (Or.inr (Or.inl ?_))))⟩
    simp only [ha, hb, hf, ne_eq, not_true_eq_false, ite_false, reduceCtorEq, not_false_eq_true,
      ite_true, true_and]
    refine ⟨hs, b3, n3, en3, en4, stop3, hb3, ?_⟩
    simp [events_append, events_cons, events_nil, Call.event, ht]
  · refine ⟨_, hpre [.isStarted true, .isOpened true] (by simp [Event.isPrelude]),
      Or.inr (Or.inr (Or.inr (Or.inr (Or.inr ?_))))⟩
    simp only [ha, hb, hf, ne_eq, not_true_eq_false, ite_false, reduceCtorEq, not_false_eq_true,
      ite_true, true_and]
    refine ⟨hs, b3, n3, hb3, ?_⟩
    simp [events_append, events_cons, events_nil, Call.event, ht]

/-! ## The loop, one pass at a time -/

/-- A pass that ends with the continuation condition true is followed by the
rest of the loop, run from the state and status the pass left. -/
theorem readLoop_continue {σ : Type} (E : Env σ) (fuel : Nat) (status : SocketIpStatus)
    (s : SocketReadTask σ) (hflow : (iteration E status s).flow ≠ .assertFailed)
    (hkeep : keepReceiving (iteration E status s).self (iteration E status s).status = true) :
    readLoop E (fuel + 1) status s =
      { readLoop E fuel (iteration E status s).status (iteration E status s).self with
        trace := (iteration E status s).trace ++
          (readLoop E fuel (iteration E status s).status (iteration E status s).self).trace } := by
  conv_lhs => unfold readLoop
  simp [hflow, hkeep]

/-- A pass that ends with the continuation condition false is followed by the
handler's `shutdown()` and the return. -/
theorem readLoop_exit {σ : Type} (E : Env σ) (fuel : Nat) (status : SocketIpStatus)
    (s : SocketReadTask σ) (hflow : (iteration E status s).flow ≠ .assertFailed)
    (hkeep : keepReceiving (iteration E status s).self (iteration E status s).status = false) :
    (readLoop E (fuel + 1) status s).outcome = .returned ∧
    (readLoop E (fuel + 1) status s).status = (iteration E status s).status ∧
    (readLoop E (fuel + 1) status s).self = (E.call .shutdown (iteration E status s).self).2 ∧
    events (readLoop E (fuel + 1) status s).trace =
      events (iteration E status s).trace ++ [.shutdown] := by
  conv_lhs => unfold readLoop
  unfold readLoop
  simp [hflow, hkeep, perform, events, Call.event]

/-- A pass stopped by the assertion ends the run. -/
theorem readLoop_assert {σ : Type} (E : Env σ) (fuel : Nat) (status : SocketIpStatus)
    (s : SocketReadTask σ) (hflow : (iteration E status s).flow = .assertFailed) :
    (readLoop E (fuel + 1) status s).outcome = .assertFailed ∧
    (readLoop E (fuel + 1) status s).trace = (iteration E status s).trace := by
  unfold readLoop
  simp [hflow]

/-- A prelude event that is a stage attempt answered success. -/
theorem Event.stageStatus_of_isPrelude {e : Event} {st : SocketIpStatus}
    (hp : e.isPrelude = true) (hst : e.stageStatus = some st) : st = .SOCK_SUCCESS := by
  cases e <;> simp_all [Event.isPrelude, Event.stageStatus]

/-- The stage attempts of a prelude are none of them hard failures, so
filtering a record for its stage attempts keeps the last attempt last. -/
theorem iteration_hard_failure {σ : Type} (E : Env σ) (status : SocketIpStatus)
    (s : SocketReadTask σ) (e : Event) (st : SocketIpStatus)
    (he : e ∈ events (iteration E status s).trace)
    (hst : e.stageStatus = some st) (hhard : hardFailure st) :
    (iteration E status s).flow ≠ .assertFailed ∧ (iteration E status s).status = st ∧
    ∃ l, (events (iteration E status s).trace).filter Event.isStage = l ++ [e] := by
  obtain ⟨pre, hpre, H⟩ := iteration_cases E status s
  have hnp : e ∉ pre := fun h => hhard.1 (Event.stageStatus_of_isPrelude (hpre e h) hst)
  rcases H with ⟨hf, -, r, en, ht⟩ | ⟨hf, -, r, en, ht⟩ | ⟨hf, ht⟩ | ⟨hf, b, -, ht⟩ |
    ⟨hf, -, b, n, en1, en2, stop, -, ht⟩ | ⟨hf, hs, b, n, -, ht⟩ <;>
  rw [ht] at he ⊢ <;>
  rcases List.mem_append.mp he with he | he <;>
  first
    | exact absurd he hnp
    | skip
  all_goals
    simp only [List.mem_cons, List.mem_singleton, List.not_mem_nil, or_false] at he
  · rcases he with rfl | rfl | rfl | rfl <;> simp [Event.stageStatus] at hst
    subst hst
    exact ⟨by simp [hf], rfl, pre.filter Event.isStage,
      by simp [List.filter_append, List.filter, Event.isStage, Event.stageStatus]⟩
  · rcases he with rfl | rfl | rfl | rfl | rfl <;> simp [Event.stageStatus] at hst
    subst hst
    exact ⟨by simp [hf], rfl, pre.filter Event.isStage,
      by simp [List.filter_append, List.filter, Event.isStage, Event.stageStatus]⟩
  · subst he
    simp [Event.stageStatus] at hst
  · subst he
    simp [Event.stageStatus] at hst
  · rcases he with rfl | rfl | rfl | rfl | rfl | rfl | rfl | rfl <;>
      simp [Event.stageStatus] at hst
    subst hst
    exact ⟨by simp [hf], rfl, pre.filter Event.isStage,
      by simp [List.filter_append, List.filter, Event.isStage, Event.stageStatus]⟩
  · rcases he with rfl | rfl | rfl | rfl <;> simp [Event.stageStatus] at hst
    subst hst
    exact absurd hhard hs

/-- A pass whose record holds a `recv` call: the call was made on the buffer
just acquired, with its data pointer and its size, the pass ran to its end
with the status `recv` answered, and the record is a prelude followed by the
failure handling or by the plain delivery. -/
theorem iteration_recv {σ : Type} (E : Env σ) (status : SocketIpStatus)
    (s : SocketReadTask σ) (d n k : Nat) (st : SocketIpStatus)
    (he : Event.recv d n st k ∈ events (iteration E status s).trace) :
    (iteration E status s).flow = .fellThrough ∧ (iteration E status s).status = st ∧
    ∃ pre b, (∀ e ∈ pre, e.isPrelude = true) ∧ b.getData ≠ 0 ∧ d = b.getData ∧
      n = b.getSize ∧
      ((hardFailure st ∧ ∃ en1 en2 stop, events (iteration E status s).trace =
          pre ++ [.getBuffer b, .recv d n st k, .logMsg (.failedToRecv st en1 stop),
            .logMsg (.strerror en2), .logMsg .newline, .close,
            .sendBuffer (b.setSize 0) st, .unlock]) ∨
       (¬ hardFailure st ∧ events (iteration E status s).trace =
          pre ++ [.getBuffer b, .recv d n st k, .sendBuffer (b.setSize k) st, .unlock])) := by
  obtain ⟨pre, hpre, H⟩ := iteration_cases E status s
  have hnp : Event.recv d n st k ∉ pre := fun h => by
    have := hpre _ h
    simp [Event.isPrelude] at this
  rcases H with ⟨hf, -, r, en, ht⟩ | ⟨hf, -, r, en, ht⟩ | ⟨hf, ht⟩ | ⟨hf, b, -, ht⟩ |
    ⟨hf, hs, b, n', en1, en2, stop, hb, ht⟩ | ⟨hf, hs, b, n', hb, ht⟩ <;>
  rw [ht] at he <;>
  rcases List.mem_append.mp he with he | he <;>
  first
    | exact absurd he hnp
    | skip
  all_goals
    simp only [List.mem_cons, List.mem_singleton, List.not_mem_nil, or_false, reduceCtorEq,
      false_or, or_false, Event.recv.injEq] at he
  · obtain ⟨rfl, rfl, hst, rfl⟩ := he
    rw [← hst] at hs ht
    exact ⟨hf, hst.symm, pre, b, hpre, hb, rfl, rfl, Or.inl ⟨hs, en1, en2, stop, ht⟩⟩
  · obtain ⟨rfl, rfl, hst, rfl⟩ := he
    rw [← hst] at hs ht
    exact ⟨hf, hst.symm, pre, b, hpre, hb, rfl, rfl, Or.inr ⟨hs, ht⟩⟩

/-- A prelude holds no delivery, no close, no delay and no log. -/
theorem Event.isPrelude_quiet {e : Event} (hp : e.isPrelude = true) :
    e.isSend = false ∧ e ≠ .close ∧ e.isDelay = false ∧ e.isLog = false := by
  cases e <;> simp_all [Event.isPrelude, Event.isSend, Event.isDelay, Event.isLog]

theorem filter_isSend_prelude {pre : List Event} (hpre : ∀ e ∈ pre, e.isPrelude = true) :
    pre.filter Event.isSend = [] := by
  rw [List.filter_eq_nil_iff]
  intro e he
  simp [(Event.isPrelude_quiet (hpre e he)).1]

/-! ## Properties of whole records -/

theorem followedBy_nil (p : Event → Bool) (q : Event → List Event → Prop) :
    FollowedBy p q [] := by
  intro pre e post h
  simp at h

theorem followedBy_of_forall_not {p : Event → Bool} {q : Event → List Event → Prop}
    {l : List Event} (h : ∀ e ∈ l, p e = false) : FollowedBy p q l := by
  intro pre e post hl hp
  have : e ∈ l := by rw [hl]; simp
  rw [h e this] at hp
  exact absurd hp (by simp)

theorem followedBy_cons {p : Event → Bool} {q : Event → List Event → Prop}
    {x : Event} {l : List Event} (hx : p x = true → q x l) (hl : FollowedBy p q l) :
    FollowedBy p q (x :: l) := by
  intro pre e post h hp
  rcases List.cons_eq_append_iff.mp h with ⟨rfl, h2⟩ | ⟨pre', rfl, h2⟩
  · obtain ⟨rfl, rfl⟩ := List.cons.inj h2
    exact hx hp
  · exact hl pre' e post h2 hp

/-- Records in which every `p` call is followed by `q` calls can be put one
after the other, when `q` only looks at the beginning of what follows. -/
theorem followedBy_append {p : Event → Bool} {q : Event → List Event → Prop}
    (hq : ∀ e post more, q e post → q e (post ++ more))
    {l1 l2 : List Event} (h1 : FollowedBy p q l1) (h2 : FollowedBy p q l2) :
    FollowedBy p q (l1 ++ l2) := by
  intro pre e post h hp
  rcases List.append_eq_append_iff.mp h with ⟨a', rfl, h3⟩ | ⟨c', rfl, h3⟩
  · exact h2 a' e post h3 hp
  · rcases List.cons_eq_append_iff.mp h3 with ⟨rfl, h4⟩ | ⟨c'', rfl, h4⟩
    · exact h2 [] e post (by rw [List.nil_append]; exact h4) hp
    · rw [h4]
      exact hq e c'' l2 (h1 pre e c'' rfl hp)

theorem backoffFollows_append (ms : Nat) (e : Event) (post more : List Event)
    (h : backoffFollows ms e post) : backoffFollows ms e (post ++ more) := by
  obtain ⟨st, en, post', hst, rfl⟩ := h
  exact ⟨st, en, post' ++ more, hst, by simp⟩

/-- A property of records that holds of the empty record, of the final
shutdown and of every pass through the loop body, and that is kept when
records are put one after the other, holds of every run of the loop. -/
theorem readLoop_events_induct {σ : Type} (E : Env σ) (P : List Event → Prop)
    (hnil : P []) (hshut : P [.shutdown])
    (happ : ∀ l1 l2, P l1 → P l2 → P (l1 ++ l2))
    (hit : ∀ status s, P (events (iteration E status s).trace)) :
    ∀ fuel status s, P (events (readLoop E fuel status s).trace) := by
  intro fuel
  induction fuel with
  | zero =>
    intro status s
    simpa [readLoop, events] using hnil
  | succ fuel ih =>
    intro status s
    by_cases hflow : (iteration E status s).flow = .assertFailed
    · rw [(readLoop_assert E fuel status s hflow).2]
      exact hit status s
    · cases hkeep : keepReceiving (iteration E status s).self (iteration E status s).status
      · rw [(readLoop_exit E fuel status s hflow hkeep).2.2.2]
        exact happ _ _ (hit status s) hshut
      · rw [readLoop_continue E fuel status s hflow hkeep]
        simp only [events_append]
        exact happ _ _ (hit status s) (ih _ _)

theorem Event.isHardStartupOrOpen_of_isPrelude {e : Event} (hp : e.isPrelude = true) :
    e.isHardStartupOrOpen = false := by
  cases e <;> simp_all [Event.isPrelude, Event.isHardStartupOrOpen, hardFailure]

/-- In one pass, a hard failure of `startup` or `open` is followed at once by
the warning, the retry delay and the unlock. -/
theorem iteration_backoff {σ : Type} (E : Env σ) (status : SocketIpStatus)
    (s : SocketReadTask σ) :
    FollowedBy Event.isHardStartupOrOpen (backoffFollows E.SOCKET_RETRY_INTERVAL_MS)
      (events (iteration E status s).trace) := by
  obtain ⟨pre, hpre, H⟩ := iteration_cases E status s
  have hp : FollowedBy Event.isHardStartupOrOpen (backoffFollows E.SOCKET_RETRY_INTERVAL_MS) pre :=
    followedBy_of_forall_not fun e he => Event.isHardStartupOrOpen_of_isPrelude (hpre e he)
  have hq := backoffFollows_append E.SOCKET_RETRY_INTERVAL_MS
  rcases H with ⟨-, -, r, en, ht⟩ | ⟨-, -, r, en, ht⟩ | ⟨-, ht⟩ | ⟨-, b, -, ht⟩ |
    ⟨-, -, b, n, en1, en2, stop, -, ht⟩ | ⟨-, -, b, n, -, ht⟩ <;>
  rw [ht] <;>
  refine followedBy_append hq hp ?_
  · refine followedBy_cons (fun _ => ⟨_, en, [], rfl, rfl⟩) ?_
    exact followedBy_of_forall_not (by simp [Event.isHardStartupOrOpen])
  · refine followedBy_cons (by simp [Event.isHardStartupOrOpen]) ?_
    refine followedBy_cons (fun _ => ⟨_, en, [], rfl, rfl⟩) ?_
    exact followedBy_of_forall_not (by simp [Event.isHardStartupOrOpen])
  · exact followedBy_of_forall_not (by simp [Event.isHardStartupOrOpen])
  · exact followedBy_of_forall_not (by simp [Event.isHardStartupOrOpen])
  · exact followedBy_of_forall_not (by simp [Event.isHardStartupOrOpen])
  · exact followedBy_of_forall_not (by simp [Event.isHardStartupOrOpen])

theorem startupStage_piece {σ : Type} (E : Env σ) (status : SocketIpStatus)
    (s : SocketReadTask σ) :
    Piece E.SOCKET_RETRY_INTERVAL_MS (events (startupStage E status s).trace) := by
  rcases startupStage_cases E status s with ⟨-, -, b, ht⟩ | ⟨-, -, r, ht⟩ | ⟨-, hs, r, en, ht⟩ <;>
  rw [ht]
  · exact .startupSkipped b
  · exact .startupDone r
  · exact .startupFailed r _ en hs

theorem openStage_piece {σ : Type} (E : Env σ) (status : SocketIpStatus)
    (s : SocketReadTask σ) :
    Piece E.SOCKET_RETRY_INTERVAL_MS (events (openStage E status s).trace) := by
  rcases openStage_cases E status s with ⟨-, -, b, ht⟩ | ⟨-, -, r, ht⟩ | ⟨-, hs, r, en, ht⟩ <;>
  rw [ht]
  · exact .openSkipped b
  · exact .openDone r
  · exact .openFailed r _ en hs

theorem readStage_piece {σ : Type} (E : Env σ) (status : SocketIpStatus)
    (s : SocketReadTask σ) :
    Piece E.SOCKET_RETRY_INTERVAL_MS (events (readStage E status s).trace) := by
  rcases readStage_cases E status s with ⟨-, -, ht⟩ | ⟨-, -, b, ht⟩ | ⟨-, -, b, hb, ht⟩ |
    ⟨-, hs, b, n, en1, en2, stop, hb, ht⟩ | ⟨-, hs, b, n, hb, ht⟩ <;>
  rw [ht]
  · exact .startupSkipped false
  · exact .notOpened b
  · exact .noData b hb
  · exact .recvFailed b _ n en1 en2 stop hb hs
  · exact .recvDone b _ n hb hs

/-- A property of records that holds of every piece and is kept when records
are put one after the other holds of every pass through the loop body. -/
theorem iteration_pieces {σ : Type} (E : Env σ) (P : List Event → Prop)
    (happ : ∀ l1 l2, P l1 → P l2 → P (l1 ++ l2))
    (hpiece : ∀ l, Piece E.SOCKET_RETRY_INTERVAL_MS l → P l)
    (status : SocketIpStatus) (s : SocketReadTask σ) :
    P (events (iteration E status s).trace) := by
  unfold iteration
  simp only [perform]
  have hl : P [Event.lock] := hpiece _ .lock
  generalize (E.call Call.lock s).2 = s0
  have A := happ _ _ hl (hpiece _ (startupStage_piece E status s0))
  generalize startupStage E status s0 = a at A ⊢
  have B := happ _ _ A (hpiece _ (openStage_piece E a.status a.self))
  generalize openStage E a.status a.self = b at B ⊢
  have C := happ _ _ B (hpiece _ (readStage_piece E b.status b.self))
  generalize readStage E b.status b.self = c at C ⊢
  have D := happ _ _ C (hpiece _ (@Piece.unlock E.SOCKET_RETRY_INTERVAL_MS))
  split_ifs
  · simpa [events, Call.event] using A
  · simpa [events, Call.event] using B
  · simpa [events, Call.event] using C
  · simpa [events, Call.event] using D

/-- A property of records that holds of the empty record, of the final
shutdown and of every piece, and is kept when records are put one after the
other, holds of every run of the loop. -/
theorem readLoop_pieces {σ : Type} (E : Env σ) (P : List Event → Prop) (hnil : P [])
    (hshut : P [.shutdown])
    (happ : ∀ l1 l2, P l1 → P l2 → P (l1 ++ l2))
    (hpiece : ∀ l, Piece E.SOCKET_RETRY_INTERVAL_MS l → P l)
    (fuel : Nat) (status : SocketIpStatus) (s : SocketReadTask σ) :
    P (events (readLoop E fuel status s).trace) :=
  readLoop_events_induct E P hnil hshut happ
    (iteration_pieces E P happ hpiece) fuel status s

theorem followedBy_cons_iff {p : Event → Bool} {q : Event → List Event → Prop}
    {x : Event} {l : List Event} :
    FollowedBy p q (x :: l) ↔ (p x = true → q x l) ∧ FollowedBy p q l := by
  constructor
  · intro h
    exact ⟨fun hp => h [] x l rfl hp, fun pre e post hl hp => h (x :: pre) e post (by simp [hl]) hp⟩
  · rintro ⟨h1, h2⟩
    exact followedBy_cons h1 h2

theorem precededBy_reverse {p : Event → Bool} {q : Event → List Event → Prop} {l : List Event} :
    PrecededBy p q l ↔ FollowedBy p (fun e post => q e post.reverse) l.reverse := by
  constructor
  · intro h pre e post hl hp
    have : l = post.reverse ++ e :: pre.reverse := by
      have := congrArg List.reverse hl
      simpa using this
    exact h _ e _ this hp
  · intro h pre e post hl hp
    have := h post.reverse e pre.reverse (by simp [hl]) hp
    simpa using this

theorem precededBy_nil (p : Event → Bool) (q : Event → List Event → Prop) :
    PrecededBy p q [] := by
  intro pre e post h
  simp at h

/-- Records in which every `p` call comes after `q` calls can be put one
after the other, when `q` only looks at the end of what came before. -/
theorem precededBy_append {p : Event → Bool} {q : Event → List Event → Prop}
    (hq : ∀ e pre more, q e pre → q e (more ++ pre))
    {l1 l2 : List Event} (h1 : PrecededBy p q l1) (h2 : PrecededBy p q l2) :
    PrecededBy p q (l1 ++ l2) := by
  rw [precededBy_reverse] at h1 h2 ⊢
  rw [List.reverse_append]
  refine followedBy_append ?_ h2 h1
  intro e post more h
  simpa using hq e post.reverse more.reverse h

theorem head?_append_of_head? {x : Event} {post : List Event} (more : List Event)
    (h : post.head? = some x) : (post ++ more).head? = some x := by
  cases post with
  | nil => simp at h
  | cons y post => simpa using h

theorem getLast?_append_of_getLast? {x : Event} {pre : List Event} (more : List Event)
    (h : pre.getLast? = some x) : (more ++ pre).getLast? = some x := by
  cases pre with
  | nil => simp at h
  | cons y pre => rw [List.getLast?_append_cons]; exact h

/-- In every run, a successful `open` is followed at once by `connected()`. -/
theorem readLoop_connected_follows {σ : Type} (E : Env σ) (fuel : Nat)
    (status : SocketIpStatus) (s : SocketReadTask σ) :
    FollowedBy Event.isOpenSuccess (fun _ post => post.head? = some .connected)
      (events (readLoop E fuel status s).trace) := by
  refine readLoop_pieces E _ (followedBy_nil _ _)
    (by simp [followedBy_cons_iff, followedBy_nil, Event.isOpenSuccess])
    (fun _ _ h1 h2 => followedBy_append (fun _ _ more h => head?_append_of_head? more h) h1 h2)
    ?_ fuel status s
  intro l hl
  cases hl <;> simp [followedBy_cons_iff, followedBy_nil, Event.isOpenSuccess]
  all_goals assumption

/-- In every run, a `connected()` comes right after a successful `open`. -/
theorem readLoop_connected_preceded {σ : Type} (E : Env σ) (fuel : Nat)
    (status : SocketIpStatus) (s : SocketReadTask σ) :
    PrecededBy Event.isConnected
      (fun _ pre => ∃ r, pre.getLast? = some (.openSocket r .SOCK_SUCCESS))
      (events (readLoop E fuel status s).trace) := by
  refine readLoop_pieces E _ (precededBy_nil _ _)
    (by rw [precededBy_reverse]; simp [followedBy_cons_iff, followedBy_nil, Event.isConnected])
    (fun _ _ h1 h2 => precededBy_append
      (fun _ _ more h => h.imp fun _ h => getLast?_append_of_getLast? more h) h1 h2)
    ?_ fuel status s
  intro l hl
  rw [precededBy_reverse]
  cases hl <;> simp [followedBy_cons_iff, followedBy_nil, Event.isConnected]

/-- In every run, an `open` comes right after an `isOpened()` that answered
false. -/
theorem readLoop_open_preceded {σ : Type} (E : Env σ) (fuel : Nat)
    (status : SocketIpStatus) (s : SocketReadTask σ) :
    PrecededBy Event.isOpen (fun _ pre => pre.getLast? = some (.isOpened false))
      (events (readLoop E fuel status s).trace) := by
  refine readLoop_pieces E _ (precededBy_nil _ _)
    (by rw [precededBy_reverse]; simp [followedBy_cons_iff, followedBy_nil, Event.isOpen])
    (fun _ _ h1 h2 => precededBy_append
      (fun _ _ more h => getLast?_append_of_getLast? more h) h1 h2)
    ?_ fuel status s
  intro l hl
  rw [precededBy_reverse]
  cases hl <;> simp [followedBy_cons_iff, followedBy_nil, Event.isOpen]

/-- In every run, as many `connected()` calls as successful `open` calls. -/
theorem readLoop_connected_count {σ : Type} (E : Env σ) (fuel : Nat)
    (status : SocketIpStatus) (s : SocketReadTask σ) :
    (events (readLoop E fuel status s).trace).countP Event.isConnected =
      (events (readLoop E fuel status s).trace).countP Event.isOpenSuccess := by
  refine readLoop_pieces E (fun l => l.countP Event.isConnected = l.countP Event.isOpenSuccess)
    rfl (by simp [List.countP_cons, Event.isConnected, Event.isOpenSuccess])
    (fun l1 l2 h1 h2 => by simp only [List.countP_append, h1, h2]) ?_ fuel status s
  intro l hl
  cases hl <;> simp_all [List.countP_cons, Event.isConnected, Event.isOpenSuccess]

/-- In every run of the loop, a hard failure of `startup` or `open` is
followed at once by the warning, the retry delay and the unlock. -/
theorem readLoop_backoff {σ : Type} (E : Env σ) (fuel : Nat) (status : SocketIpStatus)
    (s : SocketReadTask σ) :
    FollowedBy Event.isHardStartupOrOpen (backoffFollows E.SOCKET_RETRY_INTERVAL_MS)
      (events (readLoop E fuel status s).trace) :=
  readLoop_events_induct E _ (followedBy_nil _ _)
    (followedBy_of_forall_not (by simp [Event.isHardStartupOrOpen]))
    (fun _ _ h1 h2 => followedBy_append (backoffFollows_append _) h1 h2)
    (iteration_backoff E) fuel status s

/-- A pass through the loop body never calls the handler's `shutdown()`. -/
theorem iteration_no_shutdown {σ : Type} (E : Env σ) (status : SocketIpStatus)
    (s : SocketReadTask σ) : Event.shutdown ∉ events (iteration E status s).trace := by
  refine iteration_pieces E (fun l => Event.shutdown ∉ l) ?_ ?_ status s
  · intro l1 l2 h1 h2 h
    rcases List.mem_append.mp h with h | h
    · exact h1 h
    · exact h2 h
  · intro l hl
    cases hl <;> simp

/-! ## The stop flag -/

/-- With the flag latched, a startup stage that is entered with `m_stop` true,
or during which a call returns with `m_stop` true, ends with `m_stop` true. -/
theorem startupStage_latched {σ : Type} (E : Env σ) (hl : StopLatched E)
    (status : SocketIpStatus) (s : SocketReadTask σ)
    (h : s.m_stop = true ∨ ∃ x ∈ (startupStage E status s).trace, x.stop = true) :
    (startupStage E status s).self.m_stop = true := by
  unfold startupStage at h ⊢
  simp only [SocketReadTask.startup, perform] at h ⊢
  split_ifs at h ⊢ <;>
  simp only [List.nil_append, List.cons_append, List.mem_cons, List.mem_singleton,
    List.not_mem_nil, or_false, exists_eq_or_imp, exists_eq_left] at h <;>
  casesm* _ ∨ _ <;>
  repeat (first | assumption | apply hl)

theorem openStage_latched {σ : Type} (E : Env σ) (hl : StopLatched E)
    (status : SocketIpStatus) (s : SocketReadTask σ)
    (h : s.m_stop = true ∨ ∃ x ∈ (openStage E status s).trace, x.stop = true) :
    (openStage E status s).self.m_stop = true := by
  unfold openStage at h ⊢
  simp only [SocketReadTask.open, perform] at h ⊢
  split_ifs at h ⊢ <;>
  simp only [List.nil_append, List.cons_append, List.mem_cons, List.mem_singleton,
    List.not_mem_nil, or_false, exists_eq_or_imp, exists_eq_left] at h <;>
  casesm* _ ∨ _ <;>
  repeat (first | assumption | apply hl)

theorem readStage_latched {σ : Type} (E : Env σ) (hl : StopLatched E)
    (status : SocketIpStatus) (s : SocketReadTask σ)
    (h : s.m_stop = true ∨ ∃ x ∈ (readStage E status s).trace, x.stop = true) :
    (readStage E status s).self.m_stop = true := by
  unfold readStage at h ⊢
  simp only [perform] at h ⊢
  split_ifs at h ⊢ <;>
  simp only [List.nil_append, List.cons_append, List.mem_cons, List.mem_singleton,
    List.not_mem_nil, or_false, exists_eq_or_imp, exists_eq_left] at h <;>
  casesm* _ ∨ _ <;>
  repeat (first | assumption | apply hl)

/-- With the flag latched, a pass that is entered with `m_stop` true, or
during which a call returns with `m_stop` true, ends with `m_stop` true. -/
theorem iteration_latched {σ : Type} (E : Env σ) (hl : StopLatched E)
    (status : SocketIpStatus) (s : SocketReadTask σ)
    (h : s.m_stop = true ∨ ∃ x ∈ (iteration E status s).trace, x.stop = true) :
    (iteration E status s).self.m_stop = true := by
  unfold iteration at h ⊢
  simp only [perform] at h ⊢
  have h0 : s.m_stop = true → (E.call Call.lock s).2.m_stop = true := hl _ _
  generalize (E.call Call.lock s).2 = s0 at h h0 ⊢
  have A := startupStage_latched E hl status s0
  generalize startupStage E status s0 = a at A h ⊢
  have B := openStage_latched E hl a.status a.self
  generalize openStage E a.status a.self = b at B h ⊢
  have C := readStage_latched E hl b.status b.self
  generalize readStage E b.status b.self = c at C h ⊢
  have D : c.self.m_stop = true → (E.call Call.unlock c.self).2.m_stop = true := hl _ _
  generalize (E.call Call.unlock c.self).2 = s1 at D h ⊢
  split_ifs at h ⊢ <;>
  simp only [List.nil_append, List.cons_append, List.mem_cons, List.mem_singleton,
    List.mem_append, List.not_mem_nil, or_false, or_and_right, exists_or, exists_eq_left,
    List.append_assoc] at h <;>
  dsimp only <;>
  generalize (∃ x ∈ a.trace, x.stop = true) = Qa at A h <;>
  generalize (∃ x ∈ b.trace, x.stop = true) = Qb at B h <;>
  generalize (∃ x ∈ c.trace, x.stop = true) = Qc at C h <;>
  tauto

/-- A startup stage entered with `m_stop` true only queries `isStarted()`. -/
theorem startupStage_stopped {σ : Type} (E : Env σ) (hl : StopLatched E)
    (status : SocketIpStatus) (s : SocketReadTask σ) (hs : s.m_stop = true) :
    (startupStage E status s).flow = .fellThrough ∧
    ∃ b, events (startupStage E status s).trace = [.isStarted b] := by
  have h1 := hl .isStarted s hs
  unfold startupStage
  simp [perform, h1, events, Call.event]

/-- An open stage entered with `m_stop` true only queries `isOpened()`. -/
theorem openStage_stopped {σ : Type} (E : Env σ) (hl : StopLatched E)
    (status : SocketIpStatus) (s : SocketReadTask σ) (hs : s.m_stop = true) :
    (openStage E status s).flow = .fellThrough ∧
    ∃ b, events (openStage E status s).trace = [.isOpened b] := by
  have h1 := hl .isOpened s hs
  unfold openStage
  simp [perform, h1, events, Call.event]

/-- A read stage entered with `m_stop` true only queries the handler. -/
theorem readStage_stopped {σ : Type} (E : Env σ) (hl : StopLatched E)
    (status : SocketIpStatus) (s : SocketReadTask σ) (hs : s.m_stop = true) :
    (readStage E status s).flow = .fellThrough ∧
    (events (readStage E status s).trace = [.isStarted false] ∨
      ∃ b, events (readStage E status s).trace = [.isStarted true, .isOpened b]) := by
  have h1 := hl .isStarted s hs
  have h2 := hl .isOpened _ h1
  unfold readStage
  simp only [perform]
  by_cases h : (E.call Call.isStarted s).1 = true
  · simp [h, h2, events, Call.event]
  · simp [h, events, Call.event]

/-- With the flag latched, a pass entered with `m_stop` true locks, queries
the handler, unlocks, and makes no other call. -/
theorem iteration_stopped {σ : Type} (E : Env σ) (hl : StopLatched E)
    (status : SocketIpStatus) (s : SocketReadTask σ) (hs : s.m_stop = true) :
    (iteration E status s).flow = .fellThrough ∧ (iteration E status s).self.m_stop = true ∧
    ∃ b1 b2, (events (iteration E status s).trace =
        [.lock, .isStarted b1, .isOpened b2, .isStarted false, .unlock] ∨
      ∃ b3, events (iteration E status s).trace =
        [.lock, .isStarted b1, .isOpened b2, .isStarted true, .isOpened b3, .unlock]) := by
  refine ⟨?_, iteration_latched E hl status s (Or.inl hs), ?_⟩ <;>
  · unfold iteration
    simp only [perform]
    have h0 := hl .lock s hs
    generalize (E.call Call.lock s).2 = s0 at h0 ⊢
    obtain ⟨fa, ba, ta⟩ := startupStage_stopped E hl status s0 h0
    have ma := startupStage_latched E hl status s0 (Or.inl h0)
    generalize startupStage E status s0 = a at fa ta ma ⊢
    obtain ⟨fb, bb, tb⟩ := openStage_stopped E hl a.status a.self ma
    have mb := openStage_latched E hl a.status a.self (Or.inl ma)
    generalize openStage E a.status a.self = b at fb tb mb ⊢
    obtain ⟨fc, tc⟩ := readStage_stopped E hl b.status b.self mb
    generalize readStage E b.status b.self = c at fc tc ⊢
    rcases tc with tc | ⟨b3, tc⟩ <;>
    simp [fa, fb, fc, events_append, events_cons, events_nil, ta, tb, tc, Call.event]

/-- With the flag latched: the startup stage in which `startup` is called and
returns with `m_stop` true ends with `m_stop` true, either in `continue` after
the warning and the delay, or falling through after a success. -/
theorem startupStage_inflight {σ : Type} (E : Env σ) (hl : StopLatched E)
    (status : SocketIpStatus) (s : SocketReadTask σ)
    (h1 : (E.call .isStarted s).1 = false) (h2 : (E.call .isStarted s).2.m_stop = false)
    (h3 : (E.call (.startup (E.call .isStarted s).2.m_reuse_address)
      (E.call .isStarted s).2).2.m_stop = true) :
    (startupStage E status s).self.m_stop = true ∧
    (((startupStage E status s).flow = .continued ∧
        ∃ r st en, events (startupStage E status s).trace =
          [.isStarted false, .startup r st, .logMsg (.failedToOpenPort st en),
           .delay E.SOCKET_RETRY_INTERVAL_MS, .unlock]) ∨
     ((startupStage E status s).flow = .fellThrough ∧
        ∃ r, events (startupStage E status s).trace =
          [.isStarted false, .startup r .SOCK_SUCCESS])) := by
  unfold startupStage
  simp only [SocketReadTask.startup, perform, h1, h2, and_self, if_true]
  split_ifs with hst
  · refine ⟨?_, Or.inl ⟨rfl, _, _, _, rfl⟩⟩
    repeat (first | assumption | apply hl)
  · refine ⟨h3, Or.inr ⟨rfl, (E.call Call.isStarted s).2.m_reuse_address, ?_⟩⟩
    simp only [events, List.map, List.nil_append, List.cons_append, Call.event,
      of_not_not hst]

/-- A pass that ends with `m_stop` true is the last one. -/
theorem keepReceiving_of_stop {σ : Type} (s : SocketReadTask σ) (status : SocketIpStatus)
    (h : s.m_stop = true) : keepReceiving s status = false := by
  simp [keepReceiving, h]

/-- With the flag latched: the pass in which `startup` is called and returns
with `m_stop` true ends with `m_stop` true, without failing the assertion,
with that one `startup` call and without any `open` or `recv` call. -/
theorem iteration_inflight {σ : Type} (E : Env σ) (hl : StopLatched E)
    (status : SocketIpStatus) (s : SocketReadTask σ)
    (h1 : (E.call .isStarted (E.call .lock s).2).1 = false)
    (h2 : (E.call .isStarted (E.call .lock s).2).2.m_stop = false)
    (h3 : (E.call (.startup (E.call .isStarted (E.call .lock s).2).2.m_reuse_address)
      (E.call .isStarted (E.call .lock s).2).2).2.m_stop = true) :
    (iteration E status s).flow ≠ .assertFailed ∧ (iteration E status s).self.m_stop = true ∧
    (events (iteration E status s).trace).countP Event.isStartup = 1 ∧
    ∀ e ∈ events (iteration E status s).trace, e.isOpen = false ∧ e.isRecv = false := by
  unfold iteration
  simp only [perform]
  generalize (E.call Call.lock s).2 = s0 at h1 h2 h3 ⊢
  obtain ⟨ma, ha⟩ := startupStage_inflight E hl status s0 h1 h2 h3
  generalize startupStage E status s0 = a at ma ha ⊢
  rcases ha with ⟨fa, r, st, en, ta⟩ | ⟨fa, r, ta⟩
  · simp [fa, ma, events_append, events_cons, events_nil, ta, Call.event, Event.isStartup,
      Event.isOpen, Event.isRecv, List.countP_cons]
  · obtain ⟨fb, bb, tb⟩ := openStage_stopped E hl a.status a.self ma
    have mb := openStage_latched E hl a.status a.self (Or.inl ma)
    generalize openStage E a.status a.self = b at fb tb mb ⊢
    obtain ⟨fc, tc⟩ := readStage_stopped E hl b.status b.self mb
    have mc := readStage_latched E hl b.status b.self (Or.inl mb)
    generalize readStage E b.status b.self = c at fc tc mc ⊢
    have md := hl .unlock c.self mc
    rcases tc with tc | ⟨b3, tc⟩ <;>
    simp [fa, fb, fc, md, events_append, events_cons, events_nil, ta, tb, tc, Call.event,
      Event.isStartup, Event.isOpen, Event.isRecv, List.countP_cons]

/-- The scripted environment never clears the stop flag. -/
theorem scripted_latched : StopLatched scripted := by
  intro α c s h
  simp only [scripted, Script.otherThread]
  split <;> simp [h]

/-- A pass that ends at the loop condition with it false: the record of the
run is the record of the pass and the final shutdown. -/
theorem readLoop_exit_trace {σ : Type} (E : Env σ) (fuel : Nat) (status : SocketIpStatus)
    (s : SocketReadTask σ) (hflow : (iteration E status s).flow ≠ .assertFailed)
    (hkeep : keepReceiving (iteration E status s).self (iteration E status s).status = false) :
    (readLoop E (fuel + 1) status s).trace = (iteration E status s).trace ++
      [{ ev := .shutdown, stop := (E.call .shutdown (iteration E status s).self).2.m_stop }] := by
  conv_lhs => unfold readLoop
  simp [hflow, hkeep, perform, Call.event]

/-- A pass begins with its one `lock` and delivers at most once. -/
theorem iteration_lock_first {σ : Type} (E : Env σ) (status : SocketIpStatus)
    (s : SocketReadTask σ) :
    (∃ rest, events (iteration E status s).trace = .lock :: rest ∧ Event.lock ∉ rest) ∧
    (events (iteration E status s).trace).countP Event.isSend ≤ 1 := by
  unfold iteration
  simp only [perform]
  generalize (E.call Call.lock s).2 = s0
  have A := startupStage_cases E status s0
  generalize startupStage E status s0 = a at A ⊢
  have B := openStage_cases E a.status a.self
  generalize openStage E a.status a.self = b at B ⊢
  have C := readStage_cases E b.status b.self
  generalize readStage E b.status b.self = c at C ⊢
  rcases A with ⟨hf, -, b1, ht⟩ | ⟨hf, -, r1, ht⟩ | ⟨hf, -, r1, en1, ht⟩ <;>
  rcases B with ⟨hf2, -, b2, ht2⟩ | ⟨hf2, -, r2, ht2⟩ | ⟨hf2, -, r2, en2, ht2⟩ <;>
  rcases C with ⟨hf3, -, ht3⟩ | ⟨hf3, -, b3, ht3⟩ | ⟨hf3, -, b3, -, ht3⟩ |
    ⟨hf3, -, b3, n3, en3, en4, stop3, -, ht3⟩ | ⟨hf3, -, b3, n3, -, ht3⟩ <;>
  simp [hf, hf2, hf3, ht, ht2, ht3, events_append, events_cons, events_nil, Call.event,
    List.countP_cons, Event.isSend]

/-- What comes after any call of a pass holds no `lock` and at most one
delivery. -/
theorem iteration_after_point {σ : Type} (E : Env σ) (status : SocketIpStatus)
    (s : SocketReadTask σ) (pre : List Step) (x : Step) (post : List Step)
    (h : (iteration E status s).trace = pre ++ x :: post) :
    (events post).countP Event.isSend ≤ 1 ∧ Event.lock ∉ events post := by
  obtain ⟨⟨rest, hr, hn⟩, hc⟩ := iteration_lock_first E status s
  rw [h, events_append, events_cons] at hr hc
  constructor
  · rw [List.countP_append, List.countP_cons] at hc
    omega
  · intro hm
    apply hn
    cases hp : events pre with
    | nil =>
      rw [hp] at hr
      simp only [List.nil_append, List.cons.injEq] at hr
      rw [← hr.2]
      exact hm
    | cons p pre' =>
      rw [hp] at hr
      simp only [List.cons_append, List.cons.injEq] at hr
      rw [← hr.2]
      simp [hm]

/-- With the flag latched: in every run of the loop, once a call has returned
with `m_stop` true, what follows holds at most one delivery and no `lock`, and
the run is over. -/
theorem readLoop_stop_point {σ : Type} (E : Env σ) (hl : StopLatched E) (fuel : Nat) :
    ∀ (status : SocketIpStatus) (s : SocketReadTask σ) (pre : List Step) (x : Step)
      (post : List Step),
      (readLoop E fuel status s).trace = pre ++ x :: post → x.stop = true →
      (events post).countP Event.isSend ≤ 1 ∧ Event.lock ∉ events post ∧
      ((readLoop E fuel status s).outcome = .returned ∨
        (readLoop E fuel status s).outcome = .assertFailed) := by
  induction fuel with
  | zero =>
    intro status s pre x post h
    simp [readLoop] at h
  | succ fuel ih =>
    intro status s pre x post h hx
    by_cases hflow : (iteration E status s).flow = .assertFailed
    · obtain ⟨ho, ht⟩ := readLoop_assert E fuel status s hflow
      rw [ht] at h
      obtain ⟨h1, h2⟩ := iteration_after_point E status s pre x post h
      exact ⟨h1, h2, Or.inr ho⟩
    · cases hkeep : keepReceiving (iteration E status s).self (iteration E status s).status
      · obtain ⟨ho, -, -, -⟩ := readLoop_exit E fuel status s hflow hkeep
        rw [readLoop_exit_trace E fuel status s hflow hkeep] at h
        refine ⟨?_, ?_, Or.inl ho⟩ <;>
        · rcases List.append_eq_append_iff.mp h with ⟨a', -, h3⟩ | ⟨c', h3, h4⟩
          · rcases List.cons_eq_append_iff.mp h3 with ⟨rfl, h5⟩ | ⟨a'', rfl, h5⟩
            · simp only [List.cons.injEq] at h5
              rw [h5.2]
              simp [events]
            · simp at h5
          · rcases List.cons_eq_append_iff.mp h4 with ⟨rfl, h5⟩ | ⟨c'', rfl, h5⟩
            · simp only [List.cons.injEq] at h5
              rw [← h5.2]
              simp [events]
            · obtain ⟨h1, h2⟩ := iteration_after_point E status s pre x c'' h3
              rw [h5, events_append]
              simp [events_cons, events_nil, List.countP_append, List.countP_cons,
                Event.isSend, h1, h2]
      · have hrun := readLoop_continue E fuel status s hflow hkeep
        rw [hrun] at h ⊢
        simp only at h ⊢
        rcases List.append_eq_append_iff.mp h with ⟨a', -, h3⟩ | ⟨c', h3, h4⟩
        · exact ih _ _ a' x post h3 hx
        · rcases List.cons_eq_append_iff.mp h4 with ⟨rfl, h5⟩ | ⟨c'', rfl, h5⟩
          · exact ih _ _ [] x post (by rw [List.nil_append]; exact h5) hx
          · have hm := iteration_latched E hl status s (Or.inr ⟨x, by rw [h3]; simp, hx⟩)
            rw [keepReceiving_of_stop _ _ hm] at hkeep
            exact absurd hkeep (by simp)

/-- C1. Unified retry gate: when a pass through the loop body holds a
`startup`, `open` or `recv` call answered with a status that is neither
success nor interrupted, and `m_stop` is false as the loop condition is
evaluated, the condition is true iff `m_reconnect` is true; with `m_reconnect`
true the run goes on with the rest of the loop; with `m_reconnect` false the
run returns after this pass, only the final shutdown follows, and the failed
call is the last `startup`, `open` or `recv` call of the whole run. -/
theorem C1_unified_retry_gate {σ : Type} (E : Env σ) (fuel : Nat) (status : SocketIpStatus)
    (s : SocketReadTask σ) (e : Event) (st : SocketIpStatus)
    (he : e ∈ events (iteration E status s).trace)
    (hst : e.stageStatus = some st) (hhard : hardFailure st)
    (hstop : (iteration E status s).self.m_stop = false) :
    keepReceiving (iteration E status s).self (iteration E status s).status =
      (iteration E status s).self.m_reconnect ∧
    ((iteration E status s).self.m_reconnect = true →
      (readLoop E (fuel + 1) status s).trace = (iteration E status s).trace ++
        (readLoop E fuel st (iteration E status s).self).trace ∧
      (readLoop E (fuel + 1) status s).outcome =
        (readLoop E fuel st (iteration E status s).self).outcome) ∧
    ((iteration E status s).self.m_reconnect = false →
      (readLoop E (fuel + 1) status s).outcome = .returned ∧
      events (readLoop E (fuel + 1) status s).trace =
        events (iteration E status s).trace ++ [.shutdown] ∧
      ((events (readLoop E (fuel + 1) status s).trace).filter Event.isStage).getLast? =
        some e) := by
  obtain ⟨hflow, hs, l, hl⟩ := iteration_hard_failure E status s e st he hst hhard
  have hkeep : keepReceiving (iteration E status s).self (iteration E status s).status =
      (iteration E status s).self.m_reconnect := by
    have h1 := hhard.1
    have h2 := hhard.2
    simp [keepReceiving, hstop, hs, h1, h2]
  refine ⟨hkeep, ?_, ?_⟩
  · intro hr
    rw [readLoop_continue E fuel status s hflow (hkeep.trans hr), hs]
    exact ⟨rfl, rfl⟩
  · intro hr
    obtain ⟨ho, -, -, ht⟩ := readLoop_exit E fuel status s hflow (hkeep.trans hr)
    refine ⟨ho, ht, ?_⟩
    rw [ht, List.filter_append, hl]
    simp [List.filter, Event.isStage, Event.stageStatus]

/-- C1 on the scripted handler: reconnect off, `startup` fails once and would
succeed the second time; the run returns after the one failure and the failed
`startup` is its last stage call. -/
theorem C1_unified_retry_gate_witness :
    (readLoop scripted 5 .SOCK_SUCCESS
        (Script.fresh false [.SOCK_OTHER 1, .SOCK_SUCCESS] [] [] none)).outcome = .returned ∧
    events (readLoop scripted 5 .SOCK_SUCCESS
        (Script.fresh false [.SOCK_OTHER 1, .SOCK_SUCCESS] [] [] none)).trace =
      events (iteration scripted .SOCK_SUCCESS
        (Script.fresh false [.SOCK_OTHER 1, .SOCK_SUCCESS] [] [] none)).trace ++ [.shutdown] ∧
    ((events (readLoop scripted 5 .SOCK_SUCCESS
        (Script.fresh false [.SOCK_OTHER 1, .SOCK_SUCCESS] [] [] none)).trace).filter
          Event.isStage).getLast? = some (.startup false (.SOCK_OTHER 1)) :=
  (C1_unified_retry_gate scripted 4 .SOCK_SUCCESS
    (Script.fresh false [.SOCK_OTHER 1, .SOCK_SUCCESS] [] [] none)
    (.startup false (.SOCK_OTHER 1)) (.SOCK_OTHER 1) (by decide) rfl (by decide)
    (by decide)).2.2 (by decide)

/-- C2. Every `recv` call of a pass that answers a status other than success
and interrupted: the pass was a prelude (no delivery, no close in it) up to
`getBuffer`, and then exactly `recv`, three log messages, the handler's
`close()`, one `sendBuffer` of the acquired buffer with size 0 and the status
`recv` answered, and `unlock`.  So the pass delivers exactly once, the close
comes before the delivery, and no `startup` or `open` follows the close within
the pass. -/
theorem C2_recv_failure_delivers_zero {σ : Type} (E : Env σ) (status : SocketIpStatus)
    (s : SocketReadTask σ) (d n k : Nat) (st : SocketIpStatus)
    (he : Event.recv d n st k ∈ events (iteration E status s).trace)
    (hhard : hardFailure st) :
    ∃ pre b en1 en2 stop, (∀ e ∈ pre, e.isPrelude = true) ∧
      events (iteration E status s).trace =
        pre ++ [.getBuffer b, .recv d n st k, .logMsg (.failedToRecv st en1 stop),
          .logMsg (.strerror en2), .logMsg .newline, .close,
          .sendBuffer (b.setSize 0) st, .unlock] ∧
      (events (iteration E status s).trace).filter Event.isSend =
        [.sendBuffer (b.setSize 0) st] ∧
      (b.setSize 0).getSize = 0 := by
  obtain ⟨-, -, pre, b, hpre, -, -, -, H⟩ := iteration_recv E status s d n k st he
  rcases H with ⟨-, en1, en2, stop, ht⟩ | ⟨hn, -⟩
  · refine ⟨pre, b, en1, en2, stop, hpre, ht, ?_, rfl⟩
    rw [ht, List.filter_append, filter_isSend_prelude hpre]
    simp [List.filter, Event.isSend]
  · exact absurd hhard hn

/-- C2 on the scripted handler: the first `recv` answers a hard failure. -/
theorem C2_recv_failure_delivers_zero_witness :
    ∃ pre b en1 en2 stop, (∀ e ∈ pre, e.isPrelude = true) ∧
      events (iteration scripted .SOCK_SUCCESS
          (Script.fresh false [] [] [(.SOCK_OTHER 7, 3)] none)).trace =
        pre ++ [.getBuffer b, .recv 4096 1024 (.SOCK_OTHER 7) 3,
          .logMsg (.failedToRecv (.SOCK_OTHER 7) en1 stop),
          .logMsg (.strerror en2), .logMsg .newline, .close,
          .sendBuffer (b.setSize 0) (.SOCK_OTHER 7), .unlock] ∧
      (events (iteration scripted .SOCK_SUCCESS
          (Script.fresh false [] [] [(.SOCK_OTHER 7, 3)] none)).trace).filter Event.isSend =
        [.sendBuffer (b.setSize 0) (.SOCK_OTHER 7)] ∧
      (b.setSize 0).getSize = 0 :=
  C2_recv_failure_delivers_zero scripted .SOCK_SUCCESS
    (Script.fresh false [] [] [(.SOCK_OTHER 7, 3)] none) 4096 1024 3 (.SOCK_OTHER 7)
    (by decide) (by decide)

/-- C3. Interrupted is not failure: when a pass holds a `recv` call answered
interrupted-try-again and `m_stop` is false as the loop condition is
evaluated, then whatever `m_reconnect` is the condition is true and the run
goes on with the rest of the loop; the pass calls no `close()`, takes no
delay and logs nothing; and it delivers the buffer exactly once, with status
interrupted-try-again. -/
theorem C3_interrupted_is_not_failure {σ : Type} (E : Env σ) (fuel : Nat)
    (status : SocketIpStatus) (s : SocketReadTask σ) (d n k : Nat)
    (he : Event.recv d n .SOCK_INTERRUPTED_TRY_AGAIN k ∈ events (iteration E status s).trace)
    (hstop : (iteration E status s).self.m_stop = false) :
    keepReceiving (iteration E status s).self (iteration E status s).status = true ∧
    (readLoop E (fuel + 1) status s).trace = (iteration E status s).trace ++
      (readLoop E fuel .SOCK_INTERRUPTED_TRY_AGAIN (iteration E status s).self).trace ∧
    (∀ e ∈ events (iteration E status s).trace,
      e ≠ .close ∧ e.isDelay = false ∧ e.isLog = false) ∧
    ∃ b : Buffer, b.getData = d ∧ (events (iteration E status s).trace).filter Event.isSend =
      [.sendBuffer (b.setSize k) .SOCK_INTERRUPTED_TRY_AGAIN] := by
  obtain ⟨hf, hs, pre, b, hpre, -, hd, -, H⟩ :=
    iteration_recv E status s d n k .SOCK_INTERRUPTED_TRY_AGAIN he
  have hkeep : keepReceiving (iteration E status s).self (iteration E status s).status = true := by
    simp [keepReceiving, hstop, hs]
  have hflow : (iteration E status s).flow ≠ .assertFailed := by simp [hf]
  rcases H with ⟨hh, -⟩ | ⟨-, ht⟩
  · exact absurd rfl hh.2
  refine ⟨hkeep, ?_, ?_, b, hd.symm, ?_⟩
  · rw [readLoop_continue E fuel status s hflow hkeep, hs]
  · intro e hmem
    rw [ht] at hmem
    rcases List.mem_append.mp hmem with hmem | hmem
    · exact (Event.isPrelude_quiet (hpre e hmem)).2
    · simp only [List.mem_cons, List.mem_singleton, List.not_mem_nil, or_false] at hmem
      rcases hmem with rfl | rfl | rfl | rfl <;> simp [Event.isDelay, Event.isLog]
  · rw [ht, List.filter_append, filter_isSend_prelude hpre]
    simp [List.filter, Event.isSend]

/-- C3 on the scripted handler: reconnect off, the first `recv` is
interrupted. -/
theorem C3_interrupted_is_not_failure_witness :
    keepReceiving (iteration scripted .SOCK_SUCCESS
        (Script.fresh false [] [] [(.SOCK_INTERRUPTED_TRY_AGAIN, 5)] none)).self
      (iteration scripted .SOCK_SUCCESS
        (Script.fresh false [] [] [(.SOCK_INTERRUPTED_TRY_AGAIN, 5)] none)).status = true :=
  (C3_interrupted_is_not_failure scripted 3 .SOCK_SUCCESS
    (Script.fresh false [] [] [(.SOCK_INTERRUPTED_TRY_AGAIN, 5)] none) 4096 1024 5
    (by decide) (by decide)).1

/-- C4. When a pass holds a `recv` call answered success that left `k` in its
size argument: the call was made with the data pointer and the size
(`getSize()`) of the buffer `getBuffer` had just handed out, the pass delivers
exactly once, that buffer with size `k` and status success, and never calls
`close()`. -/
theorem C4_recv_success_delivers_received {σ : Type} (E : Env σ) (status : SocketIpStatus)
    (s : SocketReadTask σ) (d c k : Nat)
    (he : Event.recv d c .SOCK_SUCCESS k ∈ events (iteration E status s).trace) :
    ∃ pre b, (∀ e ∈ pre, e.isPrelude = true) ∧ b.getData = d ∧ b.getSize = c ∧
      events (iteration E status s).trace =
        pre ++ [.getBuffer b, .recv d c .SOCK_SUCCESS k,
          .sendBuffer (b.setSize k) .SOCK_SUCCESS, .unlock] ∧
      (events (iteration E status s).trace).filter Event.isSend =
        [.sendBuffer (b.setSize k) .SOCK_SUCCESS] ∧
      (b.setSize k).getSize = k ∧ (b.setSize k).getData = d ∧
      Event.close ∉ events (iteration E status s).trace := by
  obtain ⟨-, -, pre, b, hpre, -, hd, hc, H⟩ :=
    iteration_recv E status s d c k .SOCK_SUCCESS he
  rcases H with ⟨hh, -⟩ | ⟨-, ht⟩
  · exact absurd rfl hh.1
  refine ⟨pre, b, hpre, hd.symm, hc.symm, ht, ?_, rfl, ?_, ?_⟩
  · rw [ht, List.filter_append, filter_isSend_prelude hpre]
    simp [List.filter, Event.isSend]
  · simp [Buffer.setSize, Buffer.getData, hd]
  · rw [ht]
    intro hmem
    rcases List.mem_append.mp hmem with hmem | hmem
    · exact (Event.isPrelude_quiet (hpre _ hmem)).2.1 rfl
    · simp at hmem

/-- C4 on the scripted handler: the first `recv` succeeds with 10 bytes into
the 1024-byte buffer. -/
theorem C4_recv_success_delivers_received_witness :
    ∃ pre b, (∀ e ∈ pre, e.isPrelude = true) ∧ b.getData = 4096 ∧ b.getSize = 1024 ∧
      events (iteration scripted .SOCK_SUCCESS
          (Script.fresh false [] [] [(.SOCK_SUCCESS, 10)] none)).trace =
        pre ++ [.getBuffer b, .recv 4096 1024 .SOCK_SUCCESS 10,
          .sendBuffer (b.setSize 10) .SOCK_SUCCESS, .unlock] ∧
      (events (iteration scripted .SOCK_SUCCESS
          (Script.fresh false [] [] [(.SOCK_SUCCESS, 10)] none)).trace).filter Event.isSend =
        [.sendBuffer (b.setSize 10) .SOCK_SUCCESS] ∧
      (b.setSize 10).getSize = 10 ∧ (b.setSize 10).getData = 4096 ∧
      Event.close ∉ events (iteration scripted .SOCK_SUCCESS
          (Script.fresh false [] [] [(.SOCK_SUCCESS, 10)] none)).trace :=
  C4_recv_success_delivers_received scripted .SOCK_SUCCESS
    (Script.fresh false [] [] [(.SOCK_SUCCESS, 10)] none) 4096 1024 10 (by decide)

/-- C5, the claim as stated fails for `recv`: reconnect on, stop never
requested, the first `recv` fails hard; the next attempt of the loop is the
`open` of the following pass, and between the two the record holds no delay
(and no other attempt). -/
theorem C5_counterexample_recv_failure_no_delay :
    (Script.fresh true [] [] [(.SOCK_OTHER 7, 0)] none).m_reconnect = true ∧
    (∀ x ∈ (readLoop scripted 2 .SOCK_SUCCESS
        (Script.fresh true [] [] [(.SOCK_OTHER 7, 0)] none)).trace, x.stop = false) ∧
    hardFailure (.SOCK_OTHER 7) ∧
    ∃ pre mid post,
      events (readLoop scripted 2 .SOCK_SUCCESS
        (Script.fresh true [] [] [(.SOCK_OTHER 7, 0)] none)).trace =
        pre ++ Event.recv 4096 1024 (.SOCK_OTHER 7) 0 ::
          (mid ++ Event.openSocket false .SOCK_SUCCESS :: post) ∧
      ∀ e ∈ mid, e.isStage = false ∧ e.isDelay = false :=
  ⟨rfl, by decide, by decide,
    [.lock, .isStarted false, .startup false .SOCK_SUCCESS, .isOpened false,
      .openSocket false .SOCK_SUCCESS, .connected, .isStarted true, .isOpened true,
      .getBuffer { data := 4096, size := 1024 }],
    [.logMsg (.failedToRecv (.SOCK_OTHER 7) 0 false), .logMsg (.strerror 0),
      .logMsg .newline, .close, .sendBuffer { data := 4096, size := 0 } (.SOCK_OTHER 7),
      .unlock, .lock, .isStarted true, .isOpened false],
    [.connected, .isStarted true, .isOpened true, .getBuffer { data := 4096, size := 1024 },
      .recv 4096 1024 .SOCK_INTERRUPTED_TRY_AGAIN 1024,
      .sendBuffer { data := 4096, size := 1024 } .SOCK_INTERRUPTED_TRY_AGAIN, .unlock],
    by decide, by decide⟩

/-- C5, amended.  In every run of the loop, between a hard failure of
`startup` or `open` and any later `startup`, `open` or `recv` call lies a
delay of `SOCKET_RETRY_INTERVAL_MS`; and a pass in which `recv` fails hard
takes no delay. -/
theorem C5_backoff_after_startup_or_open {σ : Type} (E : Env σ) (fuel : Nat)
    (status : SocketIpStatus) (s : SocketReadTask σ) :
    (∀ pre e mid e' post,
      events (readLoop E fuel status s).trace = pre ++ e :: (mid ++ e' :: post) →
      e.isHardStartupOrOpen = true → e'.isStage = true →
      Event.delay E.SOCKET_RETRY_INTERVAL_MS ∈ mid) ∧
    (∀ e ∈ events (iteration E status s).trace, e.isHardRecv = true →
      ∀ x ∈ events (iteration E status s).trace, x.isDelay = false) := by
  constructor
  · intro pre e mid e' post h he he'
    obtain ⟨st, en, post', -, hpost⟩ := readLoop_backoff E fuel status s pre e _ h he
    rcases mid with _ | ⟨m1, mid⟩
    · simp at hpost
      rw [hpost.1] at he'
      simp [Event.isStage, Event.stageStatus] at he'
    rcases mid with _ | ⟨m2, mid⟩
    · simp at hpost
      rw [hpost.2.1] at he'
      simp [Event.isStage, Event.stageStatus] at he'
    simp at hpost
    simp [hpost.2.1]
  · intro e he hr x hx
    cases e <;> simp [Event.isHardRecv] at hr
    rename_i d n st k
    obtain ⟨pre, b, en1, en2, stop, hpre, ht, -, -⟩ :=
      C2_recv_failure_delivers_zero E status s d n k st he hr
    rw [ht] at hx
    rcases List.mem_append.mp hx with hx | hx
    · exact (Event.isPrelude_quiet (hpre x hx)).2.2.1
    · simp only [List.mem_cons, List.mem_singleton, List.not_mem_nil, or_false] at hx
      rcases hx with rfl | rfl | rfl | rfl | rfl | rfl | rfl | rfl <;> simp [Event.isDelay]

/-- C5 amended, on the scripted handler: reconnect on, `open` fails hard once
and then succeeds; the delay lies between the two `open` calls. -/
theorem C5_backoff_after_startup_or_open_witness :
    Event.delay scripted.SOCKET_RETRY_INTERVAL_MS ∈
      [Event.logMsg (.failedToOpenPort (.SOCK_OTHER 4) 0), .delay 1000, .unlock, .lock,
        .isStarted true, .isOpened false] :=
  (C5_backoff_after_startup_or_open scripted 2 .SOCK_SUCCESS
    (Script.fresh true [] [.SOCK_OTHER 4] [] none)).1
    [.lock, .isStarted false, .startup false .SOCK_SUCCESS, .isOpened false]
    (.openSocket false (.SOCK_OTHER 4))
    [.logMsg (.failedToOpenPort (.SOCK_OTHER 4) 0), .delay 1000, .unlock, .lock,
      .isStarted true, .isOpened false]
    (.openSocket false .SOCK_SUCCESS)
    [.connected, .isStarted true, .isOpened true, .getBuffer { data := 4096, size := 1024 },
      .recv 4096 1024 .SOCK_INTERRUPTED_TRY_AGAIN 1024,
      .sendBuffer { data := 4096, size := 1024 } .SOCK_INTERRUPTED_TRY_AGAIN, .unlock]
    (by decide) (by decide) (by decide)

/-- C6. `connected()` fires exactly once per successful `open`.  In the
record of every run of the loop: there are as many `connected()` calls as
`open` calls answered success; the call right after a successful `open` is
`connected()`; the call right before a `connected()` is a successful `open`;
a `recv` that comes after a successful `open` comes after its `connected()`;
the call right after a failed `open` is not `connected()`; and the call right
before an `open` is an `isOpened()` that answered false. -/
theorem C6_connected_once_per_successful_open {σ : Type} (E : Env σ) (fuel : Nat)
    (status : SocketIpStatus) (s : SocketReadTask σ) :
    (events (readLoop E fuel status s).trace).countP Event.isConnected =
      (events (readLoop E fuel status s).trace).countP Event.isOpenSuccess ∧
    (∀ pre e post, events (readLoop E fuel status s).trace = pre ++ e :: post →
      e.isOpenSuccess = true → post.head? = some .connected) ∧
    (∀ pre e post, events (readLoop E fuel status s).trace = pre ++ e :: post →
      e.isConnected = true → ∃ r, pre.getLast? = some (.openSocket r .SOCK_SUCCESS)) ∧
    (∀ pre e mid d n st k post,
      events (readLoop E fuel status s).trace = pre ++ e :: (mid ++ .recv d n st k :: post) →
      e.isOpenSuccess = true → mid.head? = some .connected) ∧
    (∀ pre e post, events (readLoop E fuel status s).trace = pre ++ e :: post →
      e.isOpen = true → e.isOpenSuccess = false → post.head? ≠ some .connected) ∧
    (∀ pre e post, events (readLoop E fuel status s).trace = pre ++ e :: post →
      e.isOpen = true → pre.getLast? = some (.isOpened false)) := by
  refine ⟨readLoop_connected_count E fuel status s, readLoop_connected_follows E fuel status s,
    readLoop_connected_preceded E fuel status s, ?_, ?_, readLoop_open_preceded E fuel status s⟩
  · intro pre e mid d n st k post h he
    have := readLoop_connected_follows E fuel status s pre e _ h he
    cases mid with
    | nil => simp at this
    | cons m mid => simpa using this
  · intro pre e post h he hne hc
    cases post with
    | nil => simp at hc
    | cons c post =>
      simp only [List.head?_cons, Option.some.injEq] at hc
      subst hc
      obtain ⟨r, hr⟩ := readLoop_connected_preceded E fuel status s (pre ++ [e]) .connected post
        (by simp [h]) rfl
      rw [List.getLast?_concat] at hr
      rw [Option.some.inj hr] at hne
      simp [Event.isOpenSuccess] at hne

/-- C6 on the scripted handler: reconnect on, `open` fails three times and
then succeeds; the run records one `connected()`. -/
theorem C6_connected_once_per_successful_open_witness :
    (events (readLoop scripted 5 .SOCK_SUCCESS
      (Script.fresh true [] [.SOCK_OTHER 4, .SOCK_OTHER 4, .SOCK_OTHER 4]
        [(.SOCK_SUCCESS, 8)] none)).trace).countP Event.isConnected = 1 :=
  (C6_connected_once_per_successful_open scripted 5 .SOCK_SUCCESS
    (Script.fresh true [] [.SOCK_OTHER 4, .SOCK_OTHER 4, .SOCK_OTHER 4]
      [(.SOCK_SUCCESS, 8)] none)).1.trans (by decide)

/-- C7. Every run of the loop that returns, whatever made the loop exit,
calls the handler's `shutdown()` exactly once, as its very last call: the
record is a body without any `shutdown()` followed by the one `shutdown()`,
so every `startup`, `open` and `recv` call comes before it. -/
theorem C7_shutdown_once_on_return {σ : Type} (E : Env σ) (fuel : Nat)
    (status : SocketIpStatus) (s : SocketReadTask σ)
    (h : (readLoop E fuel status s).outcome = .returned) :
    ∃ body, events (readLoop E fuel status s).trace = body ++ [.shutdown] ∧
      Event.shutdown ∉ body ∧
      (events (readLoop E fuel status s).trace).countP (fun e => decide (e = .shutdown)) = 1 ∧
      (events (readLoop E fuel status s).trace).getLast? = some .shutdown := by
  suffices H : ∃ body, events (readLoop E fuel status s).trace = body ++ [.shutdown] ∧
      Event.shutdown ∉ body by
    obtain ⟨body, hb, hn⟩ := H
    refine ⟨body, hb, hn, ?_, ?_⟩
    · rw [hb, List.countP_append]
      have : body.countP (fun e => decide (e = Event.shutdown)) = 0 := by
        rw [List.countP_eq_zero]
        intro e he
        simp only [decide_eq_true_eq]
        rintro rfl
        exact hn he
      simp [this]
    · rw [hb]
      simp
  induction fuel generalizing status s with
  | zero => simp [readLoop] at h
  | succ fuel ih =>
    by_cases hflow : (iteration E status s).flow = .assertFailed
    · rw [(readLoop_assert E fuel status s hflow).1] at h
      simp at h
    · cases hkeep : keepReceiving (iteration E status s).self (iteration E status s).status
      · exact ⟨_, (readLoop_exit E fuel status s hflow hkeep).2.2.2,
          iteration_no_shutdown E status s⟩
      · rw [readLoop_continue E fuel status s hflow hkeep] at h ⊢
        obtain ⟨body, hb, hn⟩ := ih _ _ h
        refine ⟨events (iteration E status s).trace ++ body, ?_, ?_⟩
        · simp only [events_append, hb, List.append_assoc]
        · intro hm
          rcases List.mem_append.mp hm with hm | hm
          · exact iteration_no_shutdown E status s hm
          · exact hn hm

/-- C7 on the scripted handler: reconnect off and a failing `startup`; the
run returns and its last call is the one `shutdown()`. -/
theorem C7_shutdown_once_on_return_witness :
    ∃ body, events (readLoop scripted 3 .SOCK_SUCCESS
        (Script.fresh false [.SOCK_OTHER 1] [] [] none)).trace = body ++ [.shutdown] ∧
      Event.shutdown ∉ body ∧
      (events (readLoop scripted 3 .SOCK_SUCCESS
        (Script.fresh false [.SOCK_OTHER 1] [] [] none)).trace).countP
          (fun e => decide (e = .shutdown)) = 1 ∧
      (events (readLoop scripted 3 .SOCK_SUCCESS
        (Script.fresh false [.SOCK_OTHER 1] [] [] none)).trace).getLast? = some .shutdown :=
  C7_shutdown_once_on_return scripted 3 .SOCK_SUCCESS
    (Script.fresh false [.SOCK_OTHER 1] [] [] none) (by decide)

/-- C8. Stop before any startup attempt completes, with the stop flag
latched.  If `m_stop` is true as `readTask` begins, the worker makes one pass
that locks, queries the handler and unlocks, calls none of `startup`, `open`,
`recv`, `getBuffer`, `sendBuffer`, then shuts the handler down and returns.
If `m_stop` is false when `startup` is called in the first pass and true when
that call returns, then whatever `startup` answered the worker returns after
that pass, having called `startup` once and never `open` or `recv`. -/
theorem C8_stop_before_startup_completes {σ : Type} (E : Env σ) (hl : StopLatched E)
    (fuel : Nat) (s : SocketReadTask σ) :
    (s.m_stop = true →
      ∃ r, readTask E (fuel + 1) (some s) = some r ∧ r.outcome = .returned ∧
        (∃ b1 b2, events r.trace =
            [.lock, .isStarted b1, .isOpened b2, .isStarted false, .unlock, .shutdown] ∨
          ∃ b3, events r.trace =
            [.lock, .isStarted b1, .isOpened b2, .isStarted true, .isOpened b3, .unlock,
             .shutdown]) ∧
        ∀ e ∈ events r.trace, e.isStage = false ∧ e.isGetBuffer = false ∧ e.isSend = false) ∧
    ((E.call .isStarted (E.call .lock s).2).1 = false →
      (E.call .isStarted (E.call .lock s).2).2.m_stop = false →
      (E.call (.startup (E.call .isStarted (E.call .lock s).2).2.m_reuse_address)
        (E.call .isStarted (E.call .lock s).2).2).2.m_stop = true →
      ∃ r, readTask E (fuel + 1) (some s) = some r ∧ r.outcome = .returned ∧
        (events r.trace).countP Event.isStartup = 1 ∧
        ∀ e ∈ events r.trace, e.isOpen = false ∧ e.isRecv = false) := by
  constructor
  · intro hs
    obtain ⟨hf, hm, b1, b2, ht⟩ := iteration_stopped E hl .SOCK_SUCCESS s hs
    obtain ⟨ho, -, -, hev⟩ := readLoop_exit E fuel .SOCK_SUCCESS s (by simp [hf])
      (keepReceiving_of_stop _ _ hm)
    refine ⟨_, rfl, ho, ⟨b1, b2, ?_⟩, ?_⟩
    · rcases ht with ht | ⟨b3, ht⟩
      · exact Or.inl (by rw [hev, ht]; rfl)
      · exact Or.inr ⟨b3, by rw [hev, ht]; rfl⟩
    · rw [hev]
      rcases ht with ht | ⟨b3, ht⟩ <;> rw [ht] <;>
      simp [Event.isStage, Event.stageStatus, Event.isGetBuffer, Event.isSend]
  · intro h1 h2 h3
    obtain ⟨hf, hm, hc, hn⟩ := iteration_inflight E hl .SOCK_SUCCESS s h1 h2 h3
    obtain ⟨ho, -, -, hev⟩ := readLoop_exit E fuel .SOCK_SUCCESS s hf
      (keepReceiving_of_stop _ _ hm)
    refine ⟨_, rfl, ho, ?_, ?_⟩
    · rw [hev, List.countP_append, hc]
      simp [Event.isStartup]
    · rw [hev]
      intro e he
      rcases List.mem_append.mp he with he | he
      · exact hn e he
      · simp only [List.mem_singleton] at he
        subst he
        simp [Event.isOpen, Event.isRecv]

/-- C8 on the scripted handler: once with `m_stop` true from the beginning,
once with the other thread calling `stopSocketTask` while the first `startup`
(the worker's third call) is in flight. -/
theorem C8_stop_before_startup_completes_witness :
    (∃ r, readTask scripted 3
        (some { Script.fresh false [] [] [] none with m_stop := true }) = some r ∧
      r.outcome = .returned ∧
      (∃ b1 b2, events r.trace =
          [.lock, .isStarted b1, .isOpened b2, .isStarted false, .unlock, .shutdown] ∨
        ∃ b3, events r.trace =
          [.lock, .isStarted b1, .isOpened b2, .isStarted true, .isOpened b3, .unlock,
           .shutdown]) ∧
      ∀ e ∈ events r.trace, e.isStage = false ∧ e.isGetBuffer = false ∧ e.isSend = false) ∧
    (∃ r, readTask scripted 3 (some (Script.fresh false [] [] [] (some 2))) = some r ∧
      r.outcome = .returned ∧
      (events r.trace).countP Event.isStartup = 1 ∧
      ∀ e ∈ events r.trace, e.isOpen = false ∧ e.isRecv = false) :=
  ⟨(C8_stop_before_startup_completes scripted scripted_latched 2
      { Script.fresh false [] [] [] none with m_stop := true }).1 rfl,
   (C8_stop_before_startup_completes scripted scripted_latched 2
      (Script.fresh false [] [] [] (some 2))).2 (by decide) (by decide) (by decide)⟩

/-- C9. Stop is terminal, with the stop flag latched.  In every run of the
loop, after any call that returned with `m_stop` true the record holds at most
one `sendBuffer` and no `lock` (no new pass begins), and the run is over: it
returned, or the data assertion stopped it.  And a run entered with `m_stop`
already true makes its one pass without any delivery and returns. -/
theorem C9_stop_is_terminal {σ : Type} (E : Env σ) (hl : StopLatched E) (fuel : Nat)
    (status : SocketIpStatus) (s : SocketReadTask σ) :
    (∀ pre x post, (readLoop E fuel status s).trace = pre ++ x :: post → x.stop = true →
      (events post).countP Event.isSend ≤ 1 ∧ Event.lock ∉ events post ∧
      ((readLoop E fuel status s).outcome = .returned ∨
        (readLoop E fuel status s).outcome = .assertFailed)) ∧
    (s.m_stop = true →
      (readLoop E (fuel + 1) status s).outcome = .returned ∧
      (events (readLoop E (fuel + 1) status s).trace).countP Event.isSend = 0 ∧
      (events (readLoop E (fuel + 1) status s).trace).countP (fun e => decide (e = .lock)) = 1) := by
  refine ⟨readLoop_stop_point E hl fuel status s, ?_⟩
  intro hs
  obtain ⟨hf, hm, b1, b2, ht⟩ := iteration_stopped E hl status s hs
  obtain ⟨ho, -, -, hev⟩ := readLoop_exit E fuel status s (by simp [hf])
    (keepReceiving_of_stop _ _ hm)
  refine ⟨ho, ?_, ?_⟩ <;>
  · rw [hev]
    rcases ht with ht | ⟨b3, ht⟩ <;> rw [ht] <;> simp [List.countP_cons, Event.isSend]

/-- C9 on the scripted handler: the other thread calls `stopSocketTask` while
the first `recv` is in flight; one delivery follows, no further pass, and the
run returns. -/
theorem C9_stop_is_terminal_witness :
    (events [{ ev := .sendBuffer { data := 4096, size := 4 } .SOCK_SUCCESS, stop := true },
        { ev := .unlock, stop := true },
        { ev := .shutdown, stop := true }]).countP Event.isSend ≤ 1 ∧
    Event.lock ∉ events
      [{ ev := .sendBuffer { data := 4096, size := 4 } .SOCK_SUCCESS, stop := true },
        { ev := .unlock, stop := true }, { ev := .shutdown, stop := true }] ∧
    ((readLoop scripted 3 .SOCK_SUCCESS
        (Script.fresh true [] [] [(.SOCK_SUCCESS, 4)] (some 9))).outcome = .returned ∨
      (readLoop scripted 3 .SOCK_SUCCESS
        (Script.fresh true [] [] [(.SOCK_SUCCESS, 4)] (some 9))).outcome = .assertFailed) :=
  (C9_stop_is_terminal scripted scripted_latched 3 .SOCK_SUCCESS
    (Script.fresh true [] [] [(.SOCK_SUCCESS, 4)] (some 9))).1
    [{ ev := .lock, stop := false }, { ev := .isStarted false, stop := false },
      { ev := .startup false .SOCK_SUCCESS, stop := false },
      { ev := .isOpened false, stop := false },
      { ev := .openSocket false .SOCK_SUCCESS, stop := false },
      { ev := .connected, stop := false }, { ev := .isStarted true, stop := false },
      { ev := .isOpened true, stop := false },
      { ev := .getBuffer { data := 4096, size := 1024 }, stop := false }]
    { ev := .recv 4096 1024 .SOCK_SUCCESS 4, stop := true }
    [{ ev := .sendBuffer { data := 4096, size := 4 } .SOCK_SUCCESS, stop := true },
      { ev := .unlock, stop := true }, { ev := .shutdown, stop := true }]
    (by decide) rfl

/-- C10. `startSocketTask` fails an assertion iff `m_task.isStarted()`
answers true, or `m_stop` is set, or `m_task.start` answers a status other
than `TASK_OK`.  When one of the two preconditions is violated the only call
made is `m_task.isStarted()` and the object is as that call left it: no flag
was stored, no task was started.  Otherwise the two flags are stored and
`m_task.start` is called exactly once, with `readTask` as the routine and
this object as its argument, on the object holding the given flags. -/
theorem C10_startSocketTask {σ : Type} (E : Env σ) (name : String)
    (reconnect reuse_address : Bool) (priority stack cpuAffinity : Nat)
    (s : SocketReadTask σ) :
    ((SocketReadTask.startSocketTask E name reconnect reuse_address priority stack cpuAffinity
        { self := s, trace := [] }).assertFailed = true ↔
      ((E.call .taskIsStarted s).1 = true ∨ (E.call .taskIsStarted s).2.m_stop = true ∨
        (E.call (.taskStart name .readTask true priority stack cpuAffinity)
          { (E.call .taskIsStarted s).2 with
            m_reconnect := reconnect, m_reuse_address := reuse_address }).1 ≠ .TASK_OK)) ∧
    (((E.call .taskIsStarted s).1 = true ∨ (E.call .taskIsStarted s).2.m_stop = true) →
      (SocketReadTask.startSocketTask E name reconnect reuse_address priority stack cpuAffinity
        { self := s, trace := [] }).ctx.self = (E.call .taskIsStarted s).2 ∧
      events (SocketReadTask.startSocketTask E name reconnect reuse_address priority stack
        cpuAffinity { self := s, trace := [] }).ctx.trace =
        [.taskIsStarted (E.call .taskIsStarted s).1]) ∧
    (((E.call .taskIsStarted s).1 = false ∧ (E.call .taskIsStarted s).2.m_stop = false) →
      (SocketReadTask.startSocketTask E name reconnect reuse_address priority stack cpuAffinity
        { self := s, trace := [] }).ctx.self =
        (E.call (.taskStart name .readTask true priority stack cpuAffinity)
          { (E.call .taskIsStarted s).2 with
            m_reconnect := reconnect, m_reuse_address := reuse_address }).2 ∧
      events (SocketReadTask.startSocketTask E name reconnect reuse_address priority stack
        cpuAffinity { self := s, trace := [] }).ctx.trace =
        [.taskIsStarted false,
         .taskStart name .readTask true priority stack cpuAffinity
          (E.call (.taskStart name .readTask true priority stack cpuAffinity)
            { (E.call .taskIsStarted s).2 with
              m_reconnect := reconnect, m_reuse_address := reuse_address }).1]) := by
  unfold SocketReadTask.startSocketTask
  simp only [perform]
  generalize E.call Call.taskIsStarted s = t
  obtain ⟨b, ⟨mr, mu, ms, ext⟩⟩ := t
  cases b <;> cases ms <;> simp only [events, Call.event] <;> split_ifs <;> simp_all

/-- C10 on the scripted task service, which reports the task not started and
answers `TASK_OK`: no assertion fails, and the task is started once on
`readTask` with the object holding the given flags. -/
theorem C10_startSocketTask_witness :
    (SocketReadTask.startSocketTask scripted "ReadTask" true true 100 4096 0
        { self := SocketReadTask.new false (Script.fresh false [] [] [] none).ext,
          trace := [] }).ctx.self =
      (scripted.call (.taskStart "ReadTask" .readTask true 100 4096 0)
        { (scripted.call .taskIsStarted
            (SocketReadTask.new false (Script.fresh false [] [] [] none).ext)).2 with
          m_reconnect := true, m_reuse_address := true }).2 ∧
    events (SocketReadTask.startSocketTask scripted "ReadTask" true true 100 4096 0
        { self := SocketReadTask.new false (Script.fresh false [] [] [] none).ext,
          trace := [] }).ctx.trace =
      [.taskIsStarted false,
       .taskStart "ReadTask" .readTask true 100 4096 0
        (scripted.call (.taskStart "ReadTask" .readTask true 100 4096 0)
          { (scripted.call .taskIsStarted
              (SocketReadTask.new false (Script.fresh false [] [] [] none).ext)).2 with
            m_reconnect := true, m_reuse_address := true }).1] :=
  (C10_startSocketTask scripted "ReadTask" true true 100 4096 0
    (SocketReadTask.new false (Script.fresh false [] [] [] none).ext)).2.2 ⟨rfl, rfl⟩

/-- A record that holds one call satisfying `p` is split around that call in
one way only. -/
theorem eq_of_append_cons_eq (p : Event → Bool) (l1 : List Event) (y : Event) (l2 : List Event)
    {pre post : List Event} {x : Event}
    (h1 : ∀ e ∈ l1, p e = false) (h2 : ∀ e ∈ l2, p e = false) (hx : p x = true)
    (h : l1 ++ y :: l2 = pre ++ x :: post) : pre = l1 ∧ x = y ∧ post = l2 := by
  rcases List.append_eq_append_iff.mp h with ⟨a', rfl, h3⟩ | ⟨c', rfl, h3⟩
  · rcases List.cons_eq_append_iff.mp h3 with ⟨rfl, h4⟩ | ⟨a'', rfl, h4⟩
    · simp only [List.cons.injEq] at h4
      exact ⟨by simp, by rw [h4.1], by rw [h4.2]⟩
    · have : x ∈ l2 := by rw [h4]; simp
      rw [h2 x this] at hx
      exact absurd hx (by simp)
  · rcases List.cons_eq_append_iff.mp h3 with ⟨rfl, h4⟩ | ⟨c'', rfl, h4⟩
    · simp only [List.cons.injEq] at h4
      exact ⟨by simp, by rw [h4.1], by rw [h4.2]⟩
    · have : x ∈ pre ++ x :: c'' := by simp
      rw [h1 x this] at hx
      exact absurd hx (by simp)

theorem precededBy_of_forall_not {p : Event → Bool} {q : Event → List Event → Prop}
    {l : List Event} (h : ∀ e ∈ l, p e = false) : PrecededBy p q l := by
  intro pre e post hl hp
  have : e ∈ l := by rw [hl]; simp
  rw [h e this] at hp
  exact absurd hp (by simp)

theorem deliveryFollows_append (e : Event) (post more : List Event)
    (h : deliveryFollows e post) : deliveryFollows e (post ++ more) := by
  obtain ⟨b, mid, k, st, post', he, rfl, hm⟩ := h
  exact ⟨b, mid, k, st, post' ++ more, he, by simp, hm⟩

theorem acquisitionPrecedes_append (e : Event) (pre more : List Event)
    (h : acquisitionPrecedes e pre) : acquisitionPrecedes e (more ++ pre) := by
  obtain ⟨b, mid, k, st, pre', he, rfl, hm⟩ := h
  exact ⟨b, mid, k, st, more ++ pre', he, by simp, hm⟩

theorem allData_left {l1 l2 : List Event} (h : AllData (l1 ++ l2)) : AllData l1 :=
  fun b hb => h b (List.mem_append_left _ hb)

theorem allData_right {l1 l2 : List Event} (h : AllData (l1 ++ l2)) : AllData l2 :=
  fun b hb => h b (List.mem_append_right _ hb)

/-- In every run whose acquired buffers all have data, an acquisition is
followed by the delivery of its buffer. -/
theorem readLoop_delivery_follows {σ : Type} (E : Env σ) (fuel : Nat)
    (status : SocketIpStatus) (s : SocketReadTask σ) :
    AllData (events (readLoop E fuel status s).trace) →
    FollowedBy Event.isGetBuffer deliveryFollows (events (readLoop E fuel status s).trace) := by
  refine readLoop_pieces E (fun l => AllData l → FollowedBy Event.isGetBuffer deliveryFollows l)
    (fun _ => followedBy_nil _ _)
    (fun _ => followedBy_of_forall_not (by simp [Event.isGetBuffer]))
    (fun l1 l2 h1 h2 h => followedBy_append deliveryFollows_append (h1 (allData_left h)) (h2 (allData_right h)))
    ?_ fuel status s
  intro l hl hd
  cases hl
  case noData b hb => exact absurd hb (hd b (by simp))
  case recvFailed b st n en1 en2 stop hb hs =>
    intro pre e post h he
    obtain ⟨-, rfl, rfl⟩ := eq_of_append_cons_eq Event.isGetBuffer
      [.isStarted true, .isOpened true] (.getBuffer b) _
      (by simp [Event.isGetBuffer]) (by simp [Event.isGetBuffer]) he h
    exact ⟨b, [.recv b.getData b.getSize st n, .logMsg (.failedToRecv st en1 stop),
      .logMsg (.strerror en2), .logMsg .newline, .close], 0, st, [], rfl, rfl,
      by simp [Event.keepsLease]⟩
  case recvDone b st n hb hs =>
    intro pre e post h he
    obtain ⟨-, rfl, rfl⟩ := eq_of_append_cons_eq Event.isGetBuffer
      [.isStarted true, .isOpened true] (.getBuffer b) _
      (by simp [Event.isGetBuffer]) (by simp [Event.isGetBuffer]) he h
    exact ⟨b, [.recv b.getData b.getSize st n], n, st, [], rfl, rfl,
      by simp [Event.keepsLease]⟩
  all_goals exact followedBy_of_forall_not (by simp [Event.isGetBuffer])

/-- In every run whose acquired buffers all have data, a delivery comes after
the acquisition of its buffer. -/
theorem readLoop_acquisition_precedes {σ : Type} (E : Env σ) (fuel : Nat)
    (status : SocketIpStatus) (s : SocketReadTask σ) :
    PrecededBy Event.isSend acquisitionPrecedes (events (readLoop E fuel status s).trace) := by
  refine readLoop_pieces E (PrecededBy Event.isSend acquisitionPrecedes)
    (precededBy_nil _ _)
    (precededBy_of_forall_not (by simp [Event.isSend]))
    (fun l1 l2 h1 h2 => precededBy_append acquisitionPrecedes_append h1 h2)
    ?_ fuel status s
  intro l hl
  cases hl
  case recvFailed b st n en1 en2 stop hb hs =>
    intro pre e post h he
    obtain ⟨rfl, rfl, -⟩ := eq_of_append_cons_eq Event.isSend
      [.isStarted true, .isOpened true, .getBuffer b, .recv b.getData b.getSize st n,
        .logMsg (.failedToRecv st en1 stop), .logMsg (.strerror en2), .logMsg .newline, .close]
      (.sendBuffer (b.setSize 0) st) []
      (by simp [Event.isSend]) (by simp) he h
    exact ⟨b, [.recv b.getData b.getSize st n, .logMsg (.failedToRecv st en1 stop),
      .logMsg (.strerror en2), .logMsg .newline, .close], 0, st,
      [.isStarted true, .isOpened true], rfl, rfl, by simp [Event.keepsLease]⟩
  case recvDone b st n hb hs =>
    intro pre e post h he
    obtain ⟨rfl, rfl, -⟩ := eq_of_append_cons_eq Event.isSend
      [.isStarted true, .isOpened true, .getBuffer b, .recv b.getData b.getSize st n]
      (.sendBuffer (b.setSize n) st) []
      (by simp [Event.isSend]) (by simp) he h
    exact ⟨b, [.recv b.getData b.getSize st n], n, st,
      [.isStarted true, .isOpened true], rfl, rfl, by simp [Event.keepsLease]⟩
  all_goals exact precededBy_of_forall_not (by simp [Event.isSend])

/-- In every run whose acquired buffers all have data: as many deliveries as
acquisitions, as many acquisitions as `recv` calls. -/
theorem readLoop_lease_counts {σ : Type} (E : Env σ) (fuel : Nat)
    (status : SocketIpStatus) (s : SocketReadTask σ) :
    AllData (events (readLoop E fuel status s).trace) →
    (events (readLoop E fuel status s).trace).countP Event.isSend =
      (events (readLoop E fuel status s).trace).countP Event.isGetBuffer ∧
    (events (readLoop E fuel status s).trace).countP Event.isGetBuffer =
      (events (readLoop E fuel status s).trace).countP Event.isRecv := by
  refine readLoop_pieces E (fun l => AllData l →
      l.countP Event.isSend = l.countP Event.isGetBuffer ∧
      l.countP Event.isGetBuffer = l.countP Event.isRecv)
    (fun _ => ⟨rfl, rfl⟩)
    (fun _ => by simp [List.countP_cons, Event.isSend, Event.isGetBuffer, Event.isRecv])
    (fun l1 l2 h1 h2 h => by
      simp only [List.countP_append, (h1 (allData_left h)).1, (h1 (allData_left h)).2, (h2 (allData_right h)).1,
        (h2 (allData_right h)).2, and_self])
    ?_ fuel status s
  intro l hl hd
  cases hl
  case noData b hb => exact absurd hb (hd b (by simp))
  all_goals simp [List.countP_cons, Event.isSend, Event.isGetBuffer, Event.isRecv]


/-- C11. Single-delivery buffer lease.  In every run of the loop in which each
acquired buffer has a data pointer that is not null: after every `getBuffer`
comes the `sendBuffer` of the buffer it handed out (with its size set), with
no other `getBuffer` or `sendBuffer` and no `lock` or `unlock` in between, so
within the same pass; before every `sendBuffer` lies the `getBuffer` of the
buffer it delivers, again with none of these in between, so no lease is
delivered twice; and the run counts as many deliveries as acquisitions and
as many acquisitions as `recv` calls. -/
theorem C11_single_delivery_lease {σ : Type} (E : Env σ) (fuel : Nat)
    (status : SocketIpStatus) (s : SocketReadTask σ)
    (hdata : ∀ b, Event.getBuffer b ∈ events (readLoop E fuel status s).trace → b.getData ≠ 0) :
    (∀ pre e post, events (readLoop E fuel status s).trace = pre ++ e :: post →
      e.isGetBuffer = true →
      ∃ b mid k st post', e = .getBuffer b ∧
        post = mid ++ .sendBuffer (b.setSize k) st :: post' ∧
        ∀ x ∈ mid, x.keepsLease = true) ∧
    (∀ pre e post, events (readLoop E fuel status s).trace = pre ++ e :: post →
      e.isSend = true →
      ∃ b mid k st pre', e = .sendBuffer (b.setSize k) st ∧
        pre = pre' ++ .getBuffer b :: mid ∧
        ∀ x ∈ mid, x.keepsLease = true) ∧
    (events (readLoop E fuel status s).trace).countP Event.isSend =
      (events (readLoop E fuel status s).trace).countP Event.isGetBuffer ∧
    (events (readLoop E fuel status s).trace).countP Event.isGetBuffer =
      (events (readLoop E fuel status s).trace).countP Event.isRecv :=
  ⟨readLoop_delivery_follows E fuel status s hdata,
    readLoop_acquisition_precedes E fuel status s,
    (readLoop_lease_counts E fuel status s hdata).1,
    (readLoop_lease_counts E fuel status s hdata).2⟩

/-- C11 on the scripted handler: one successful and one failed `recv`; two
acquisitions, two deliveries, two `recv` calls. -/
theorem C11_single_delivery_lease_witness :
    (events (readLoop scripted 2 .SOCK_SUCCESS
      (Script.fresh true [] [] [(.SOCK_SUCCESS, 10), (.SOCK_OTHER 7, 3)] none)).trace).countP
        Event.isSend = 2 ∧
    (events (readLoop scripted 2 .SOCK_SUCCESS
      (Script.fresh true [] [] [(.SOCK_SUCCESS, 10), (.SOCK_OTHER 7, 3)] none)).trace).countP
        Event.isGetBuffer = 2 :=
  have h := (C11_single_delivery_lease scripted 2 .SOCK_SUCCESS
    (Script.fresh true [] [] [(.SOCK_SUCCESS, 10), (.SOCK_OTHER 7, 3)] none)
    (fun b hb => by
      have ht : events (readLoop scripted 2 .SOCK_SUCCESS
          (Script.fresh true [] [] [(.SOCK_SUCCESS, 10), (.SOCK_OTHER 7, 3)] none)).trace =
        [.lock, .isStarted false, .startup false .SOCK_SUCCESS, .isOpened false,
          .openSocket false .SOCK_SUCCESS, .connected, .isStarted true, .isOpened true,
          .getBuffer { data := 4096, size := 1024 }, .recv 4096 1024 .SOCK_SUCCESS 10,
          .sendBuffer { data := 4096, size := 10 } .SOCK_SUCCESS, .unlock,
          .lock, .isStarted true, .isOpened true, .isStarted true, .isOpened true,
          .getBuffer { data := 4096, size := 1024 }, .recv 4096 1024 (.SOCK_OTHER 7) 3,
          .logMsg (.failedToRecv (.SOCK_OTHER 7) 0 false), .logMsg (.strerror 0),
          .logMsg .newline, .close, .sendBuffer { data := 4096, size := 0 } (.SOCK_OTHER 7),
          .unlock] := by decide
      rw [ht] at hb
      simp at hb
      subst hb
      decide)).2.2.1
  ⟨h.trans (by decide), by decide⟩

/-- With the flag latched, a run of the loop entered with `m_stop` true ends
with `m_stop` true. -/
theorem readLoop_latched {σ : Type} (E : Env σ) (hl : StopLatched E) (fuel : Nat)
    (status : SocketIpStatus) (s : SocketReadTask σ) (hs : s.m_stop = true) :
    (readLoop E fuel status s).self.m_stop = true := by
  cases fuel with
  | zero => simpa [readLoop] using hs
  | succ fuel =>
    have hm := iteration_latched E hl status s (Or.inl hs)
    by_cases hflow : (iteration E status s).flow = .assertFailed
    · unfold readLoop
      simp [hflow, hm]
    · rw [(readLoop_exit E fuel status s hflow (keepReceiving_of_stop _ _ hm)).2.2.1]
      exact hl _ _ hm

/-- C12. The stop flag is monotone and stop is idempotent.  `m_stop` is false
after construction.  `stopSocketTask` sets it and makes one call, the
handler's `shutdown()`, on the object with the flag set.  With collaborators
that never clear the flag, no member function takes `m_stop` from true to
false: `startSocketTask`, `startup`, `open`, `close`, `shutdown`,
`joinSocketTask`, `stopSocketTask` and `readTask` all end with `m_stop` true
when entered with it true, and `stopSocketTask` ends with it true in any case.
A second `stopSocketTask` stores nothing new, and when the handler's
`shutdown()` leaves the already shut down object as it is, the object after
the second call is the object after the first. -/
theorem C12_stop_flag_monotone_idempotent {σ : Type} (E : Env σ) (hl : StopLatched E)
    (x : Ctx σ) :
    (∀ (reuse : Bool) (ext : σ), (SocketReadTask.new reuse ext).m_stop = false) ∧
    ((SocketReadTask.stopSocketTask E x).self = (E.call .shutdown { x.self with m_stop := true }).2 ∧
      events (SocketReadTask.stopSocketTask E x).trace = events x.trace ++ [.shutdown] ∧
      (SocketReadTask.stopSocketTask E x).self.m_stop = true) ∧
    (x.self.m_stop = true →
      (∀ name reconnect reuse priority stack cpuAffinity,
        (SocketReadTask.startSocketTask E name reconnect reuse priority stack cpuAffinity
          x).ctx.self.m_stop = true) ∧
      (∀ reuse, (SocketReadTask.startup E reuse x).2.self.m_stop = true) ∧
      (∀ reuse, (SocketReadTask.open E reuse x).2.self.m_stop = true) ∧
      (SocketReadTask.close E x).self.m_stop = true ∧
      (SocketReadTask.shutdown E x).self.m_stop = true ∧
      (∀ value_ptr, (SocketReadTask.joinSocketTask E value_ptr x).2.self.m_stop = true) ∧
      (∀ fuel run, readTask E fuel (some x.self) = some run → run.self.m_stop = true)) ∧
    ({ (SocketReadTask.stopSocketTask E x).self with m_stop := true } =
        (SocketReadTask.stopSocketTask E x).self ∧
      ((E.call .shutdown (SocketReadTask.stopSocketTask E x).self).2 =
          (SocketReadTask.stopSocketTask E x).self →
        (SocketReadTask.stopSocketTask E (SocketReadTask.stopSocketTask E x)).self =
          (SocketReadTask.stopSocketTask E x).self)) := by
  have hstop : (SocketReadTask.stopSocketTask E x).self.m_stop = true := by
    simp only [SocketReadTask.stopSocketTask, perform]
    exact hl _ _ rfl
  have hsame : { (SocketReadTask.stopSocketTask E x).self with m_stop := true } =
      (SocketReadTask.stopSocketTask E x).self := by
    generalize (SocketReadTask.stopSocketTask E x).self = t at hstop
    cases t
    simp only at hstop
    simp [hstop]
  refine ⟨fun _ _ => rfl, ⟨rfl, ?_, hstop⟩, ?_, hsame, ?_⟩
  · simp [SocketReadTask.stopSocketTask, perform, events, Call.event]
  · intro hs
    refine ⟨?_, ?_, ?_, ?_, ?_, ?_, ?_⟩
    · intro name reconnect reuse priority stack cpuAffinity
      have h1 := hl .taskIsStarted x.self hs
      unfold SocketReadTask.startSocketTask
      simp only [perform]
      split_ifs <;> exact h1
    · intro reuse
      exact hl _ _ hs
    · intro reuse
      simp only [SocketReadTask.open, perform]
      split_ifs
      · exact hl _ _ (hl _ _ hs)
      · exact hl _ _ hs
    · exact hl _ _ (hl _ _ hs)
    · exact hl _ _ (hl _ _ hs)
    · intro value_ptr
      exact hl _ _ hs
    · intro fuel run hrun
      simp only [readTask, Option.some.injEq] at hrun
      rw [← hrun]
      exact readLoop_latched E hl fuel _ _ hs
  · intro hidem
    have : (SocketReadTask.stopSocketTask E (SocketReadTask.stopSocketTask E x)).self =
        (E.call .shutdown { (SocketReadTask.stopSocketTask E x).self with m_stop := true }).2 := rfl
    rw [this, hsame, hidem]

/-- C12 on the scripted handler: a second `stopSocketTask` leaves the object
as the first one left it. -/
theorem C12_stop_flag_monotone_idempotent_witness :
    (SocketReadTask.stopSocketTask scripted (SocketReadTask.stopSocketTask scripted
        { self := Script.fresh true [] [] [] none, trace := [] })).self =
      (SocketReadTask.stopSocketTask scripted
        { self := Script.fresh true [] [] [] none, trace := [] }).self :=
  (C12_stop_flag_monotone_idempotent scripted scripted_latched
    { self := Script.fresh true [] [] [] none, trace := [] }).2.2.2.2 rfl

/-- The reconnect scenario on the scripted handler, five passes: `startup`
succeeds, `open` fails three times and then succeeds, `recv` succeeds once
and then fails. -/
theorem scenario_five_passes (c1 c2 c3 cr n k : Nat) :
    events (readLoop scripted 5 .SOCK_SUCCESS
      (Script.fresh true [] [.SOCK_OTHER c1, .SOCK_OTHER c2, .SOCK_OTHER c3]
        [(.SOCK_SUCCESS, n), (.SOCK_OTHER cr, k)] none)).trace =
    ([Event.lock, .isStarted false, .startup false .SOCK_SUCCESS, .isOpened false,
      .openSocket false (.SOCK_OTHER c1), .logMsg (.failedToOpenPort (.SOCK_OTHER c1) 0),
      .delay 1000, .unlock,
     .lock, .isStarted true, .isOpened false,
      .openSocket false (.SOCK_OTHER c2), .logMsg (.failedToOpenPort (.SOCK_OTHER c2) 0),
      .delay 1000, .unlock,
     .lock, .isStarted true, .isOpened false,
      .openSocket false (.SOCK_OTHER c3), .logMsg (.failedToOpenPort (.SOCK_OTHER c3) 0),
      .delay 1000, .unlock,
     .lock, .isStarted true, .isOpened false, .openSocket false .SOCK_SUCCESS, .connected,
      .isStarted true, .isOpened true, .getBuffer { data := 4096, size := 1024 },
      .recv 4096 1024 .SOCK_SUCCESS n, .sendBuffer { data := 4096, size := n } .SOCK_SUCCESS,
      .unlock,
     .lock, .isStarted true, .isOpened true, .isStarted true, .isOpened true,
      .getBuffer { data := 4096, size := 1024 }, .recv 4096 1024 (.SOCK_OTHER cr) k,
      .logMsg (.failedToRecv (.SOCK_OTHER cr) 0 false), .logMsg (.strerror 0),
      .logMsg .newline, .close, .sendBuffer { data := 4096, size := 0 } (.SOCK_OTHER cr),
      .unlock] : List Event) ∧
    (readLoop scripted 5 .SOCK_SUCCESS
      (Script.fresh true [] [.SOCK_OTHER c1, .SOCK_OTHER c2, .SOCK_OTHER c3]
        [(.SOCK_SUCCESS, n), (.SOCK_OTHER cr, k)] none)).outcome = .outOfFuel ∧
    (readLoop scripted 5 .SOCK_SUCCESS
      (Script.fresh true [] [.SOCK_OTHER c1, .SOCK_OTHER c2, .SOCK_OTHER c3]
        [(.SOCK_SUCCESS, n), (.SOCK_OTHER cr, k)] none)).status = .SOCK_OTHER cr ∧
    (readLoop scripted 5 .SOCK_SUCCESS
      (Script.fresh true [] [.SOCK_OTHER c1, .SOCK_OTHER c2, .SOCK_OTHER c3]
        [(.SOCK_SUCCESS, n), (.SOCK_OTHER cr, k)] none)).self.m_stop = false ∧
    (readLoop scripted 5 .SOCK_SUCCESS
      (Script.fresh true [] [.SOCK_OTHER c1, .SOCK_OTHER c2, .SOCK_OTHER c3]
        [(.SOCK_SUCCESS, n), (.SOCK_OTHER cr, k)] none)).self.m_reconnect = true := by
  simp [readLoop, iteration, startupStage, openStage, readStage, perform, scripted,
    Script.answer, Script.otherThread, Script.fresh, SocketReadTask.startup, SocketReadTask.open,
    events, Call.event, keepReceiving, Buffer.getData, Buffer.getSize, Buffer.setSize]


/-- A run that is still going after `n` passes goes on, with more passes
allowed, from the state and the status those `n` passes left. -/
theorem readLoop_add {σ : Type} (E : Env σ) (n m : Nat) :
    ∀ (status : SocketIpStatus) (s : SocketReadTask σ),
      (readLoop E n status s).outcome = .outOfFuel →
      (readLoop E (n + m) status s).trace = (readLoop E n status s).trace ++
        (readLoop E m (readLoop E n status s).status (readLoop E n status s).self).trace := by
  induction n with
  | zero =>
    intro status s _
    simp [readLoop]
  | succ n ih =>
    intro status s h
    by_cases hflow : (iteration E status s).flow = .assertFailed
    · rw [(readLoop_assert E n status s hflow).1] at h
      simp at h
    · cases hkeep : keepReceiving (iteration E status s).self (iteration E status s).status
      · rw [(readLoop_exit E n status s hflow hkeep).1] at h
        simp at h
      · have e1 := readLoop_continue E n status s hflow hkeep
        have e2 := readLoop_continue E (n + m) status s hflow hkeep
        rw [e1] at h
        rw [show n + 1 + m = n + m + 1 by omega, e2, e1]
        simp only [ih _ _ h, List.append_assoc]

/-- A run with at least one pass allowed begins with `lock`. -/
theorem readLoop_begins_with_lock {σ : Type} (E : Env σ) (fuel : Nat)
    (status : SocketIpStatus) (s : SocketReadTask σ) :
    ∃ rest, events (readLoop E (fuel + 1) status s).trace = .lock :: rest := by
  obtain ⟨⟨rest, hr, -⟩, -⟩ := iteration_lock_first E status s
  by_cases hflow : (iteration E status s).flow = .assertFailed
  · exact ⟨rest, by rw [(readLoop_assert E fuel status s hflow).2, hr]⟩
  · cases hkeep : keepReceiving (iteration E status s).self (iteration E status s).status
    · exact ⟨rest ++ [.shutdown],
        by rw [(readLoop_exit E fuel status s hflow hkeep).2.2.2, hr]; rfl⟩
    · rw [readLoop_continue E fuel status s hflow hkeep]
      exact ⟨rest ++ events (readLoop E fuel (iteration E status s).status
        (iteration E status s).self).trace, by simp only [events_append, hr]; rfl⟩

/-- C14. The reconnect scenario on the scripted handler, for any failure codes
and byte counts: reconnect on, stop never requested, `startup` succeeds,
`open` fails hard three times and then succeeds, `recv` succeeds once and then
fails hard.  The five passes this takes record exactly one `connected()`, then
one delivery with the received size and status success, then one delivery with
size 0 and the failure status; after the fifth pass the loop condition is true
and the loop is still going: with a sixth pass allowed the record goes on with
the `lock` of that pass. -/
theorem C14_reconnect_scenario (c1 c2 c3 cr n k : Nat) :
    hardFailure (.SOCK_OTHER c1) ∧ hardFailure (.SOCK_OTHER c2) ∧
    hardFailure (.SOCK_OTHER c3) ∧ hardFailure (.SOCK_OTHER cr) ∧
    (events (readLoop scripted 5 .SOCK_SUCCESS
      (Script.fresh true [] [.SOCK_OTHER c1, .SOCK_OTHER c2, .SOCK_OTHER c3]
        [(.SOCK_SUCCESS, n), (.SOCK_OTHER cr, k)] none)).trace).filter
          Event.isConnectedOrSend =
      [.connected, .sendBuffer { data := 4096, size := n } .SOCK_SUCCESS,
        .sendBuffer { data := 4096, size := 0 } (.SOCK_OTHER cr)] ∧
    (readLoop scripted 5 .SOCK_SUCCESS
      (Script.fresh true [] [.SOCK_OTHER c1, .SOCK_OTHER c2, .SOCK_OTHER c3]
        [(.SOCK_SUCCESS, n), (.SOCK_OTHER cr, k)] none)).outcome = .outOfFuel ∧
    keepReceiving
      (readLoop scripted 5 .SOCK_SUCCESS
        (Script.fresh true [] [.SOCK_OTHER c1, .SOCK_OTHER c2, .SOCK_OTHER c3]
          [(.SOCK_SUCCESS, n), (.SOCK_OTHER cr, k)] none)).self
      (readLoop scripted 5 .SOCK_SUCCESS
        (Script.fresh true [] [.SOCK_OTHER c1, .SOCK_OTHER c2, .SOCK_OTHER c3]
          [(.SOCK_SUCCESS, n), (.SOCK_OTHER cr, k)] none)).status = true ∧
    ∃ rest, events (readLoop scripted 6 .SOCK_SUCCESS
      (Script.fresh true [] [.SOCK_OTHER c1, .SOCK_OTHER c2, .SOCK_OTHER c3]
        [(.SOCK_SUCCESS, n), (.SOCK_OTHER cr, k)] none)).trace =
      events (readLoop scripted 5 .SOCK_SUCCESS
        (Script.fresh true [] [.SOCK_OTHER c1, .SOCK_OTHER c2, .SOCK_OTHER c3]
          [(.SOCK_SUCCESS, n), (.SOCK_OTHER cr, k)] none)).trace ++ .lock :: rest := by
  obtain ⟨ht, ho, hs, hm, hr⟩ := scenario_five_passes c1 c2 c3 cr n k
  refine ⟨by simp [hardFailure], by simp [hardFailure], by simp [hardFailure],
    by simp [hardFailure], ?_, ho, ?_, ?_⟩
  · rw [ht]
    simp [List.filter, Event.isConnectedOrSend, Event.isConnected, Event.isSend]
  · simp [keepReceiving, hm, hr]
  · have h6 := readLoop_add scripted 5 1 _ _ ho
    obtain ⟨rest, hrest⟩ := readLoop_begins_with_lock scripted 0
      (readLoop scripted 5 .SOCK_SUCCESS
        (Script.fresh true [] [.SOCK_OTHER c1, .SOCK_OTHER c2, .SOCK_OTHER c3]
          [(.SOCK_SUCCESS, n), (.SOCK_OTHER cr, k)] none)).status
      (readLoop scripted 5 .SOCK_SUCCESS
        (Script.fresh true [] [.SOCK_OTHER c1, .SOCK_OTHER c2, .SOCK_OTHER c3]
          [(.SOCK_SUCCESS, n), (.SOCK_OTHER cr, k)] none)).self
    exact ⟨rest, by rw [show (6 : Nat) = 5 + 1 from rfl, h6, events_append, hrest]⟩

theorem lockHeld_append (e : Event) (pre more : List Event) (h : lockHeld e pre) :
    lockHeld e (more ++ pre) := by
  obtain ⟨pre', mid, rfl, h1, h2⟩ := h
  exact ⟨more ++ pre', mid, by simp, h1, h2⟩

theorem Event.isPrelude_not_unlock {e : Event} (hp : e.isPrelude = true) : e ≠ .unlock := by
  cases e <;> simp_all [Event.isPrelude]

/-- In one pass, the lock is held when the retry delay is called. -/
theorem iteration_delay_locked {σ : Type} (E : Env σ) (status : SocketIpStatus)
    (s : SocketReadTask σ) :
    PrecededBy Event.isDelay lockHeld (events (iteration E status s).trace) := by
  obtain ⟨pre, hpre, H⟩ := iteration_cases E status s
  obtain ⟨⟨rest, hr, hn⟩, -⟩ := iteration_lock_first E status s
  have hnd : ∀ e ∈ pre, e.isDelay = false := fun e he => (Event.isPrelude_quiet (hpre e he)).2.2.1
  have key : ∀ (tl : List Event) (hd : Event),
      events (iteration E status s).trace = pre ++ hd :: tl → hd ≠ .lock →
      ∃ pre0, pre = .lock :: pre0 ∧ Event.unlock ∉ pre0 ∧ Event.lock ∉ pre0 := by
    intro tl hd ht hne
    rw [hr] at ht
    cases pre with
    | nil =>
      simp only [List.nil_append, List.cons.injEq] at ht
      exact absurd ht.1.symm hne
    | cons p pre0 =>
      simp only [List.cons_append, List.cons.injEq] at ht
      refine ⟨pre0, by rw [ht.1], ?_, ?_⟩
      · intro hu
        exact Event.isPrelude_not_unlock (hpre _ (List.mem_cons_of_mem _ hu)) rfl
      · intro hu
        apply hn
        rw [ht.2]
        simp [hu]
  rcases H with ⟨-, -, r, en, ht⟩ | ⟨-, -, r, en, ht⟩ | ⟨-, ht⟩ | ⟨-, b, -, ht⟩ |
    ⟨-, -, b, n, en1, en2, stop, -, ht⟩ | ⟨-, -, b, n, -, ht⟩
  · obtain ⟨pre0, rfl, hu, hk⟩ := key _ _ ht (by simp)
    rw [ht]
    intro pr e po h he
    obtain ⟨rfl, -, -⟩ := eq_of_append_cons_eq Event.isDelay
      (.lock :: pre0 ++ [.startup r (iteration E status s).status,
        .logMsg (.failedToOpenPort (iteration E status s).status en)])
      (.delay E.SOCKET_RETRY_INTERVAL_MS) [.unlock]
      (by
        intro e he
        rcases List.mem_append.mp he with he | he
        · exact hnd e he
        · simp at he
          rcases he with rfl | rfl <;> rfl)
      (by simp [Event.isDelay]) he (by simpa using h)
    exact ⟨[], pre0 ++ [.startup r (iteration E status s).status,
        .logMsg (.failedToOpenPort (iteration E status s).status en)], by simp,
      by simp [hu], by simp [hk]⟩
  · obtain ⟨pre0, rfl, hu, hk⟩ := key _ _ ht (by simp)
    rw [ht]
    intro pr e po h he
    obtain ⟨rfl, -, -⟩ := eq_of_append_cons_eq Event.isDelay
      (.lock :: pre0 ++ [.isOpened false, .openSocket r (iteration E status s).status,
        .logMsg (.failedToOpenPort (iteration E status s).status en)])
      (.delay E.SOCKET_RETRY_INTERVAL_MS) [.unlock]
      (by
        intro e he
        rcases List.mem_append.mp he with he | he
        · exact hnd e he
        · simp at he
          rcases he with rfl | rfl | rfl <;> rfl)
      (by simp [Event.isDelay]) he (by simpa using h)
    exact ⟨[], pre0 ++ [.isOpened false, .openSocket r (iteration E status s).status,
        .logMsg (.failedToOpenPort (iteration E status s).status en)], by simp,
      by simp [hu], by simp [hk]⟩
  all_goals
    rw [ht]
    refine precededBy_of_forall_not ?_
    intro e he
    rcases List.mem_append.mp he with he | he
    · exact hnd e he
    · simp at he
      rcases he with rfl | rfl | rfl | rfl | rfl | rfl | rfl | rfl <;> rfl


/-- In every run, the lock is held when the retry delay is called. -/
theorem readLoop_delay_locked {σ : Type} (E : Env σ) (fuel : Nat) (status : SocketIpStatus)
    (s : SocketReadTask σ) :
    PrecededBy Event.isDelay lockHeld (events (readLoop E fuel status s).trace) :=
  readLoop_events_induct E _ (precededBy_nil _ _)
    (precededBy_of_forall_not (by simp [Event.isDelay]))
    (fun _ _ h1 h2 => precededBy_append lockHeld_append h1 h2)
    (iteration_delay_locked E) fuel status s

/-- In every run, the call right after the retry delay is the `unlock`. -/
theorem readLoop_unlock_follows_delay {σ : Type} (E : Env σ) (fuel : Nat)
    (status : SocketIpStatus) (s : SocketReadTask σ) :
    FollowedBy Event.isDelay (fun _ post => post.head? = some .unlock)
      (events (readLoop E fuel status s).trace) := by
  refine readLoop_pieces E _ (followedBy_nil _ _)
    (by simp [followedBy_cons_iff, followedBy_nil, Event.isDelay])
    (fun _ _ h1 h2 => followedBy_append (fun _ _ more h => head?_append_of_head? more h) h1 h2)
    ?_ fuel status s
  intro l hl
  cases hl <;> simp [followedBy_cons_iff, followedBy_nil, Event.isDelay]

/-- C15, the claim as stated fails: reconnect on, `startup` fails; when the
retry delay is called the lock of the pass has been taken and not released,
and the `unlock` comes after the delay. -/
theorem C15_counterexample_delay_before_unlock :
    ∃ pre post,
      events (iteration scripted .SOCK_SUCCESS
        (Script.fresh true [.SOCK_OTHER 1] [] [] none)).trace =
        pre ++ Event.delay scripted.SOCKET_RETRY_INTERVAL_MS :: post ∧
      Event.lock ∈ pre ∧ Event.unlock ∉ pre ∧ Event.unlock ∈ post :=
  ⟨[.lock, .isStarted false, .startup false (.SOCK_OTHER 1),
      .logMsg (.failedToOpenPort (.SOCK_OTHER 1) 0)], [.unlock],
    by decide, by decide, by decide, by decide⟩

/-- C15, amended.  In every run of the loop the retry delay is taken while
`m_task_lock` is held: before every call of `Os::Task::delay` lies the `lock`
of the pass with no `unlock` (and no other `lock`) in between, and the call
right after the delay is the `unlock`. -/
theorem C15_delay_while_locked {σ : Type} (E : Env σ) (fuel : Nat) (status : SocketIpStatus)
    (s : SocketReadTask σ) :
    ∀ pre e post, events (readLoop E fuel status s).trace = pre ++ e :: post →
      e.isDelay = true →
      (∃ pre' mid, pre = pre' ++ .lock :: mid ∧ Event.unlock ∉ mid ∧ Event.lock ∉ mid) ∧
      post.head? = some .unlock :=
  fun pre e post h he =>
    ⟨readLoop_delay_locked E fuel status s pre e post h he,
      readLoop_unlock_follows_delay E fuel status s pre e post h he⟩

/-- C15 amended, on the scripted handler: `open` fails hard once; at the delay
the lock is held and the `unlock` follows. -/
theorem C15_delay_while_locked_witness :
    (∃ pre' mid, [Event.lock, .isStarted false, .startup false .SOCK_SUCCESS, .isOpened false,
        .openSocket false (.SOCK_OTHER 4), .logMsg (.failedToOpenPort (.SOCK_OTHER 4) 0)] =
        pre' ++ .lock :: mid ∧ Event.unlock ∉ mid ∧ Event.lock ∉ mid) ∧
    [Event.unlock].head? = some .unlock :=
  C15_delay_while_locked scripted 1 .SOCK_SUCCESS
    (Script.fresh true [] [.SOCK_OTHER 4] [] none)
    [.lock, .isStarted false, .startup false .SOCK_SUCCESS, .isOpened false,
      .openSocket false (.SOCK_OTHER 4), .logMsg (.failedToOpenPort (.SOCK_OTHER 4) 0)]
    (.delay 1000) [.unlock] (by decide) rfl

theorem startupStage_no_read {σ : Type} (E : Env σ) (status : SocketIpStatus)
    (s : SocketReadTask σ) : ∀ y ∈ (startupStage E status s).trace, y.ev.isRead = false := by
  intro y hy
  have hm : y.ev ∈ events (startupStage E status s).trace := List.mem_map_of_mem _ hy
  have hall : ∀ e ∈ events (startupStage E status s).trace, e.isRead = false := by
    rcases startupStage_cases E status s with ⟨-, -, b, ht⟩ | ⟨-, -, r, ht⟩ | ⟨-, -, r, en, ht⟩ <;>
    rw [ht] <;> simp [Event.isRead, Event.isGetBuffer, Event.isRecv]
  exact hall _ hm

theorem openStage_no_read {σ : Type} (E : Env σ) (status : SocketIpStatus)
    (s : SocketReadTask σ) : ∀ y ∈ (openStage E status s).trace, y.ev.isRead = false := by
  intro y hy
  have hm : y.ev ∈ events (openStage E status s).trace := List.mem_map_of_mem _ hy
  have hall : ∀ e ∈ events (openStage E status s).trace, e.isRead = false := by
    rcases openStage_cases E status s with ⟨-, -, b, ht⟩ | ⟨-, -, r, ht⟩ | ⟨-, -, r, en, ht⟩ <;>
    rw [ht] <;> simp [Event.isRead, Event.isGetBuffer, Event.isRecv]
  exact hall _ hm

/-- The read stage, call by call: either it acquires nothing and receives
nothing, or it queries `isStarted()` and `isOpened()`, both answer true and
`m_stop` is false as `isOpened()` returns, it acquires a buffer, and then
either stops at the data assertion or calls `recv` once with that buffer's
data pointer and size. -/
theorem readStage_steps {σ : Type} (E : Env σ) (status : SocketIpStatus)
    (s : SocketReadTask σ) :
    (∀ y ∈ (readStage E status s).trace, y.ev.isRead = false) ∨
    ∃ b s1 s3 rest, (readStage E status s).trace =
        { ev := .isStarted true, stop := s1 } :: { ev := .isOpened true, stop := false } ::
          { ev := .getBuffer b, stop := s3 } :: rest ∧
      ((rest = [] ∧ (readStage E status s).flow = .assertFailed) ∨
        ∃ st n s4 rest', rest = { ev := .recv b.getData b.getSize st n, stop := s4 } :: rest' ∧
          (readStage E status s).flow = .fellThrough ∧
          ∀ y ∈ rest', y.ev.isRead = false) := by
  unfold readStage
  simp only [perform]
  split_ifs with h1 h2 h3 h4
  · right
    simp only [h1, h2.1, h2.2, Call.event, List.nil_append, List.cons_append]
    exact ⟨_, _, _, _, rfl, Or.inl ⟨rfl, trivial⟩⟩
  · right
    simp only [h1, h2.1, h2.2, Call.event, List.nil_append, List.cons_append]
    exact ⟨_, _, _, _, rfl, Or.inr ⟨_, _, _, _, rfl, trivial,
      by simp [Event.isRead, Event.isGetBuffer, Event.isRecv]⟩⟩
  · right
    simp only [h1, h2.1, h2.2, Call.event, List.nil_append, List.cons_append]
    exact ⟨_, _, _, _, rfl, Or.inr ⟨_, _, _, _, rfl, trivial,
      by simp [Event.isRead, Event.isGetBuffer, Event.isRecv]⟩⟩
  · left
    simp [Call.event, Event.isRead, Event.isGetBuffer, Event.isRecv]
  · left
    simp [Call.event, Event.isRead, Event.isGetBuffer, Event.isRecv]


/-- C16. Reads are guarded by readiness.  Whenever a pass calls `getBuffer` or
`recv`, its record has this shape: calls that acquire and receive nothing;
then `isStarted()` answering true, `isOpened()` answering true with `m_stop`
false as it returns (the value the check reads), and `getBuffer`, one right
after the other; then either nothing (the data assertion failed) or `recv`
called with the data pointer and the `getSize()` of the buffer just acquired,
followed by calls that acquire and receive nothing. -/
theorem C16_reads_guarded_by_readiness {σ : Type} (E : Env σ) (status : SocketIpStatus)
    (s : SocketReadTask σ) (x : Step) (hx : x ∈ (iteration E status s).trace)
    (hr : x.ev.isRead = true) :
    ∃ pre b s1 s3 rest, (iteration E status s).trace =
        pre ++ { ev := .isStarted true, stop := s1 } :: { ev := .isOpened true, stop := false } ::
          { ev := .getBuffer b, stop := s3 } :: rest ∧
      (∀ y ∈ pre, y.ev.isRead = false) ∧
      (rest = [] ∨
        ∃ st n s4 rest', rest = { ev := .recv b.getData b.getSize st n, stop := s4 } :: rest' ∧
          ∀ y ∈ rest', y.ev.isRead = false) := by
  unfold iteration at hx ⊢
  simp only [perform] at hx ⊢
  generalize (E.call Call.lock s).2 = s0 at hx ⊢
  have A := startupStage_no_read E status s0
  generalize startupStage E status s0 = a at A hx ⊢
  have B := openStage_no_read E a.status a.self
  generalize openStage E a.status a.self = b at B hx ⊢
  have C := readStage_steps E b.status b.self
  generalize readStage E b.status b.self = c at C hx ⊢
  have hno : x ∉ a.trace := fun h => by rw [A x h] at hr; exact absurd hr (by simp)
  have hno2 : x ∉ b.trace := fun h => by rw [B x h] at hr; exact absurd hr (by simp)
  have hpre : ∀ y ∈ Step.mk Event.lock s0.m_stop :: (a.trace ++ b.trace),
      y.ev.isRead = false := by
    intro y hy
    simp only [List.mem_cons, List.mem_append] at hy
    rcases hy with rfl | hy | hy
    · rfl
    · exact A y hy
    · exact B y hy
  simp only [List.nil_append, List.cons_append, List.singleton_append, Call.event,
    List.append_assoc] at hx ⊢
  split_ifs at hx ⊢ with fa fb fc
  · simp only [List.nil_append, List.cons_append, List.mem_cons, List.mem_append] at hx
    rcases hx with rfl | hx
    · exact absurd hr (by simp [Call.event, Event.isRead, Event.isGetBuffer, Event.isRecv])
    · exact absurd hx hno
  · simp only [List.nil_append, List.cons_append, List.mem_cons, List.mem_append] at hx
    rcases hx with rfl | hx | hx
    · exact absurd hr (by simp [Call.event, Event.isRead, Event.isGetBuffer, Event.isRecv])
    · exact absurd hx hno
    · exact absurd hx hno2
  · rcases C with C | ⟨bf, s1, s3, rest, ht, hrest⟩
    · simp only [List.nil_append, List.cons_append, List.mem_cons, List.mem_append] at hx
      rcases hx with rfl | hx | hx | hx
      · exact absurd hr (by simp [Call.event, Event.isRead, Event.isGetBuffer, Event.isRecv])
      · exact absurd hx hno
      · exact absurd hx hno2
      · rw [C x hx] at hr
        exact absurd hr (by simp)
    · refine ⟨_, bf, s1, s3, rest, ?_, hpre, ?_⟩
      · simp only [ht, List.cons_append, List.append_assoc]
      rcases hrest with ⟨h1, -⟩ | ⟨st, n, s4, rest', h1, -, h3⟩
      · exact Or.inl h1
      · exact Or.inr ⟨st, n, s4, rest', h1, h3⟩
  · rcases C with C | ⟨bf, s1, s3, rest, ht, hrest⟩
    · simp only [List.nil_append, List.cons_append, List.mem_cons, List.mem_append,
        List.mem_singleton, List.not_mem_nil, or_false] at hx
      rcases hx with rfl | hx | hx | hx | rfl
      · exact absurd hr (by simp [Call.event, Event.isRead, Event.isGetBuffer, Event.isRecv])
      · exact absurd hx hno
      · exact absurd hx hno2
      · rw [C x hx] at hr
        exact absurd hr (by simp)
      · exact absurd hr (by simp [Call.event, Event.isRead, Event.isGetBuffer, Event.isRecv])
    · rcases hrest with ⟨-, h2⟩ | ⟨st, n, s4, rest', h1, -, h3⟩
      · have hfc : c.flow = .fellThrough := not_not.mp fc
        rw [hfc] at h2
        exact absurd h2 (by simp)
      · refine ⟨_, bf, s1, s3, _, ?_, hpre, Or.inr ⟨st, n, s4,
          rest' ++ [Step.mk .unlock (E.call Call.unlock c.self).2.m_stop], rfl, ?_⟩⟩
        · simp only [ht, h1, List.cons_append, List.append_assoc]
        intro y hy
        rcases List.mem_append.mp hy with hy | hy
        · exact h3 y hy
        · simp only [List.mem_singleton] at hy
          rw [hy]
          rfl

/-- C16 on the scripted handler: the first pass reads; `getBuffer` comes
right after the two queries answering true with `m_stop` false. -/
theorem C16_reads_guarded_by_readiness_witness :
    ∃ pre b s1 s3 rest, (iteration scripted .SOCK_SUCCESS
        (Script.fresh false [] [] [(.SOCK_SUCCESS, 10)] none)).trace =
        pre ++ { ev := .isStarted true, stop := s1 } :: { ev := .isOpened true, stop := false } ::
          { ev := .getBuffer b, stop := s3 } :: rest ∧
      (∀ y ∈ pre, y.ev.isRead = false) ∧
      (rest = [] ∨
        ∃ st n s4 rest', rest = { ev := .recv b.getData b.getSize st n, stop := s4 } :: rest' ∧
          ∀ y ∈ rest', y.ev.isRead = false) :=
  C16_reads_guarded_by_readiness scripted .SOCK_SUCCESS
    (Script.fresh false [] [] [(.SOCK_SUCCESS, 10)] none)
    { ev := .recv 4096 1024 .SOCK_SUCCESS 10, stop := false } (by decide) rfl

/-- The stage attempts of one pass, in order: each stage at most once, in the
order `startup`, `open`, `recv`, and every attempt but the last answered
success. -/
theorem iteration_stage_order {σ : Type} (E : Env σ) (status : SocketIpStatus)
    (s : SocketReadTask σ) :
    ((events (iteration E status s).trace).filter Event.isStage).Chain' stageOrder ∧
    (events (iteration E status s).trace).countP Event.isStartup ≤ 1 ∧
    (events (iteration E status s).trace).countP Event.isOpen ≤ 1 ∧
    (events (iteration E status s).trace).countP Event.isRecv ≤ 1 := by
  unfold iteration
  simp only [perform]
  generalize (E.call Call.lock s).2 = s0
  have A := startupStage_cases E status s0
  generalize startupStage E status s0 = a at A ⊢
  have B := openStage_cases E a.status a.self
  generalize openStage E a.status a.self = b at B ⊢
  have C := readStage_cases E b.status b.self
  generalize readStage E b.status b.self = c at C ⊢
  rcases A with ⟨hf, -, b1, ht⟩ | ⟨hf, -, r1, ht⟩ | ⟨hf, -, r1, en1, ht⟩ <;>
  rcases B with ⟨hf2, -, b2, ht2⟩ | ⟨hf2, -, r2, ht2⟩ | ⟨hf2, -, r2, en2, ht2⟩ <;>
  rcases C with ⟨hf3, -, ht3⟩ | ⟨hf3, -, b3, ht3⟩ | ⟨hf3, -, b3, -, ht3⟩ |
    ⟨hf3, -, b3, n3, en3, en4, stop3, -, ht3⟩ | ⟨hf3, -, b3, n3, -, ht3⟩ <;>
  simp [hf, hf2, hf3, ht, ht2, ht3, events_append, events_cons, events_nil, Call.event,
    List.countP_cons, List.filter, Event.isStage, Event.stageStatus, Event.isStartup,
    Event.isOpen, Event.isRecv, stageOrder, Event.stageRank]


/-- In one pass, an `open` comes right after an `isOpened()` that answered
false. -/
theorem iteration_open_preceded {σ : Type} (E : Env σ) (status : SocketIpStatus)
    (s : SocketReadTask σ) :
    PrecededBy Event.isOpen (fun _ pre => pre.getLast? = some (.isOpened false))
      (events (iteration E status s).trace) := by
  refine iteration_pieces E _
    (fun _ _ h1 h2 => precededBy_append
      (fun _ _ more h => getLast?_append_of_getLast? more h) h1 h2)
    ?_ status s
  intro l hl
  rw [precededBy_reverse]
  cases hl <;> simp [followedBy_cons_iff, followedBy_nil, Event.isOpen]

/-- C17, the claim as stated fails: on a fresh scripted handler the first pass
attempts `startup`, `open` and `recv`, all three. -/
theorem C17_counterexample_three_stages_in_one_pass :
    Event.startup false .SOCK_SUCCESS ∈ events (iteration scripted .SOCK_SUCCESS
      (Script.fresh false [] [] [(.SOCK_SUCCESS, 10)] none)).trace ∧
    Event.openSocket false .SOCK_SUCCESS ∈ events (iteration scripted .SOCK_SUCCESS
      (Script.fresh false [] [] [(.SOCK_SUCCESS, 10)] none)).trace ∧
    Event.recv 4096 1024 .SOCK_SUCCESS 10 ∈ events (iteration scripted .SOCK_SUCCESS
      (Script.fresh false [] [] [(.SOCK_SUCCESS, 10)] none)).trace ∧
    (events (iteration scripted .SOCK_SUCCESS
      (Script.fresh false [] [] [(.SOCK_SUCCESS, 10)] none)).trace).countP Event.isStage = 3 := by
  decide

/-- C17, amended.  Each pass through the loop body attempts each of `startup`,
`open` and `recv` at most once and in this order, and goes on to a later stage
only after every earlier attempt of the pass answered success; `open` is
attempted only right after `isOpened()` answered false. -/
theorem C17_stages_in_order {σ : Type} (E : Env σ) (status : SocketIpStatus)
    (s : SocketReadTask σ) :
    ((events (iteration E status s).trace).filter Event.isStage).Chain' stageOrder ∧
    (events (iteration E status s).trace).countP Event.isStartup ≤ 1 ∧
    (events (iteration E status s).trace).countP Event.isOpen ≤ 1 ∧
    (events (iteration E status s).trace).countP Event.isRecv ≤ 1 ∧
    (∀ pre e post, events (iteration E status s).trace = pre ++ e :: post →
      e.isOpen = true → pre.getLast? = some (.isOpened false)) :=
  ⟨(iteration_stage_order E status s).1, (iteration_stage_order E status s).2.1,
    (iteration_stage_order E status s).2.2.1, (iteration_stage_order E status s).2.2.2,
    iteration_open_preceded E status s⟩

/-- C17 amended, on the scripted handler: in the first pass the `open` comes
right after `isOpened()` answered false. -/
theorem C17_stages_in_order_witness :
    [Event.lock, .isStarted false, .startup false .SOCK_SUCCESS, .isOpened false].getLast? =
      some (.isOpened false) :=
  (C17_stages_in_order scripted .SOCK_SUCCESS
    (Script.fresh false [] [] [(.SOCK_SUCCESS, 10)] none)).2.2.2.2
    [.lock, .isStarted false, .startup false .SOCK_SUCCESS, .isOpened false]
    (.openSocket false .SOCK_SUCCESS)
    [.connected, .isStarted true, .isOpened true, .getBuffer { data := 4096, size := 1024 },
      .recv 4096 1024 .SOCK_SUCCESS 10, .sendBuffer { data := 4096, size := 10 } .SOCK_SUCCESS,
      .unlock]
    (by decide) rfl

theorem lockTrack_append (held : Bool) (l1 l2 : List Event) :
    lockTrack held (l1 ++ l2) = (lockTrack held l1).bind (fun h => lockTrack h l2) := by
  induction l1 generalizing held with
  | nil => simp [lockTrack]
  | cons e l1 ih =>
    cases e <;> cases held <;> simp [lockTrack, ih]

/-- One pass and the lock: the pass begins with its one `lock`; unless the
data assertion stops it, it ends with its one `unlock`; the lock is never
taken while held nor released while free. -/
theorem iteration_lock_balance {σ : Type} (E : Env σ) (status : SocketIpStatus)
    (s : SocketReadTask σ) :
    (events (iteration E status s).trace).head? = some .lock ∧
    (events (iteration E status s).trace).countP Event.isLock = 1 ∧
    lockTrack false (events (iteration E status s).trace) =
      some (decide ((iteration E status s).flow = .assertFailed)) ∧
    ((iteration E status s).flow ≠ .assertFailed →
      (events (iteration E status s).trace).getLast? = some .unlock ∧
      (events (iteration E status s).trace).countP Event.isUnlock = 1) := by
  unfold iteration
  simp only [perform]
  generalize (E.call Call.lock s).2 = s0
  have A := startupStage_cases E status s0
  generalize startupStage E status s0 = a at A ⊢
  have B := openStage_cases E a.status a.self
  generalize openStage E a.status a.self = b at B ⊢
  have C := readStage_cases E b.status b.self
  generalize readStage E b.status b.self = c at C ⊢
  rcases A with ⟨hf, -, b1, ht⟩ | ⟨hf, -, r1, ht⟩ | ⟨hf, -, r1, en1, ht⟩ <;>
  rcases B with ⟨hf2, -, b2, ht2⟩ | ⟨hf2, -, r2, ht2⟩ | ⟨hf2, -, r2, en2, ht2⟩ <;>
  rcases C with ⟨hf3, -, ht3⟩ | ⟨hf3, -, b3, ht3⟩ | ⟨hf3, -, b3, -, ht3⟩ |
    ⟨hf3, -, b3, n3, en3, en4, stop3, -, ht3⟩ | ⟨hf3, -, b3, n3, -, ht3⟩ <;>
  simp [hf, hf2, hf3, ht, ht2, ht3, events_append, events_cons, events_nil, Call.event,
    List.countP_cons, Event.isLock, Event.isUnlock, lockTrack]


/-- A run and the lock: the lock is never taken while held nor released while
free, and after the run it is held only if the data assertion stopped the
worker inside a pass. -/
theorem readLoop_lock_balance {σ : Type} (E : Env σ) (fuel : Nat) :
    ∀ (status : SocketIpStatus) (s : SocketReadTask σ),
      lockTrack false (events (readLoop E fuel status s).trace) =
        some (decide ((readLoop E fuel status s).outcome = .assertFailed)) := by
  induction fuel with
  | zero =>
    intro status s
    simp [readLoop, events, lockTrack]
  | succ fuel ih =>
    intro status s
    have hit := (iteration_lock_balance E status s).2.2.1
    by_cases hflow : (iteration E status s).flow = .assertFailed
    · obtain ⟨ho, ht⟩ := readLoop_assert E fuel status s hflow
      rw [ht, ho, hit, hflow]
      simp
    · cases hkeep : keepReceiving (iteration E status s).self (iteration E status s).status
      · obtain ⟨ho, -, -, ht⟩ := readLoop_exit E fuel status s hflow hkeep
        rw [ht, ho, lockTrack_append, hit]
        simp [hflow, lockTrack]
      · rw [readLoop_continue E fuel status s hflow hkeep]
        simp only [events_append, lockTrack_append, hit]
        simp [hflow, ih]

/-- A run that returns ends with the handler's `shutdown()`. -/
theorem readLoop_returned_ends {σ : Type} (E : Env σ) (fuel : Nat) :
    ∀ (status : SocketIpStatus) (s : SocketReadTask σ),
      (readLoop E fuel status s).outcome = .returned →
      ∃ body, events (readLoop E fuel status s).trace = body ++ [.shutdown] := by
  induction fuel with
  | zero =>
    intro status s h
    simp [readLoop] at h
  | succ fuel ih =>
    intro status s h
    by_cases hflow : (iteration E status s).flow = .assertFailed
    · rw [(readLoop_assert E fuel status s hflow).1] at h
      simp at h
    · cases hkeep : keepReceiving (iteration E status s).self (iteration E status s).status
      · exact ⟨_, (readLoop_exit E fuel status s hflow hkeep).2.2.2⟩
      · rw [readLoop_continue E fuel status s hflow hkeep] at h ⊢
        obtain ⟨body, hb⟩ := ih _ _ h
        exact ⟨events (iteration E status s).trace ++ body,
          by simp only [events_append, hb, List.append_assoc]⟩

/-- C18. Lock balance.  On every path through one pass of the loop body that
reaches the loop condition, the record begins with the one `lock` of the pass
and ends with its one `unlock`.  In every run the lock is never taken while
held nor released while free, and it is free after the run unless the data
assertion stopped the worker inside a pass.  When the run returns, the lock is
free at the final `shutdown()`. -/
theorem C18_lock_balance {σ : Type} (E : Env σ) (fuel : Nat) (status : SocketIpStatus)
    (s : SocketReadTask σ) :
    ((iteration E status s).flow ≠ .assertFailed →
      (events (iteration E status s).trace).head? = some .lock ∧
      (events (iteration E status s).trace).getLast? = some .unlock ∧
      (events (iteration E status s).trace).countP Event.isLock = 1 ∧
      (events (iteration E status s).trace).countP Event.isUnlock = 1) ∧
    lockTrack false (events (readLoop E fuel status s).trace) =
      some (decide ((readLoop E fuel status s).outcome = .assertFailed)) ∧
    ((readLoop E fuel status s).outcome = .returned →
      ∃ body, events (readLoop E fuel status s).trace = body ++ [.shutdown] ∧
        lockTrack false body = some false) := by
  obtain ⟨h1, h2, -, h4⟩ := iteration_lock_balance E status s
  refine ⟨fun hf => ⟨h1, (h4 hf).1, h2, (h4 hf).2⟩, readLoop_lock_balance E fuel status s, ?_⟩
  intro ho
  obtain ⟨body, hb⟩ := readLoop_returned_ends E fuel status s ho
  refine ⟨body, hb, ?_⟩
  have h := readLoop_lock_balance E fuel status s
  rw [hb, ho, lockTrack_append] at h
  cases hbody : lockTrack false body with
  | none => simp [hbody] at h
  | some held =>
    rw [hbody] at h
    simpa [lockTrack] using h

/-- C18 on the scripted handler: a run with a failed `startup`, reconnect off;
it returns with the lock free at the final `shutdown()`. -/
theorem C18_lock_balance_witness :
    ∃ body, events (readLoop scripted 3 .SOCK_SUCCESS
        (Script.fresh false [.SOCK_OTHER 1] [] [] none)).trace = body ++ [.shutdown] ∧
      lockTrack false body = some false :=
  (C18_lock_balance scripted 3 .SOCK_SUCCESS
    (Script.fresh false [.SOCK_OTHER 1] [] [] none)).2.2 (by decide)

/-- A pass that ends in `continue`: queries and at most a successful
`startup`, then the failed `startup` or `open` with the status the pass
leaves, the warning, the retry delay, the unlock. -/
theorem iteration_continued {σ : Type} (E : Env σ) (status : SocketIpStatus)
    (s : SocketReadTask σ) (hc : (iteration E status s).flow = .continued) :
    ∃ pre e en, (∀ x ∈ pre, x.isBeforeAttempt = true) ∧
      (e.isStartup = true ∨ e.isOpen = true) ∧
      e.stageStatus = some (iteration E status s).status ∧
      events (iteration E status s).trace =
        pre ++ [e, .logMsg (.failedToOpenPort (iteration E status s).status en),
          .delay E.SOCKET_RETRY_INTERVAL_MS, .unlock] := by
  unfold iteration at hc ⊢
  simp only [perform] at hc ⊢
  generalize (E.call Call.lock s).2 = s0 at hc ⊢
  have A := startupStage_cases E status s0
  generalize startupStage E status s0 = a at A hc ⊢
  have B := openStage_cases E a.status a.self
  generalize openStage E a.status a.self = b at B hc ⊢
  have C := readStage_cases E b.status b.self
  generalize readStage E b.status b.self = c at C hc ⊢
  rcases A with ⟨hf, -, b1, ht⟩ | ⟨hf, -, r1, ht⟩ | ⟨hf, -, r1, en1, ht⟩
  · rcases B with ⟨hf2, -, b2, ht2⟩ | ⟨hf2, -, r2, ht2⟩ | ⟨hf2, -, r2, en2, ht2⟩
    · rcases C with ⟨hf3, -⟩ | ⟨hf3, -⟩ | ⟨hf3, -⟩ | ⟨hf3, -⟩ | ⟨hf3, -⟩ <;>
      simp [hf, hf2, hf3] at hc
    · rcases C with ⟨hf3, -⟩ | ⟨hf3, -⟩ | ⟨hf3, -⟩ | ⟨hf3, -⟩ | ⟨hf3, -⟩ <;>
      simp [hf, hf2, hf3] at hc
    · refine ⟨[.lock, .isStarted b1, .isOpened false], .openSocket r2 b.status, en2,
        by simp [Event.isBeforeAttempt], Or.inr rfl, ?_, ?_⟩ <;>
      simp [hf, hf2, ht, ht2, events_append, events_cons, events_nil, Call.event,
        Event.stageStatus]
  · rcases B with ⟨hf2, -, b2, ht2⟩ | ⟨hf2, -, r2, ht2⟩ | ⟨hf2, -, r2, en2, ht2⟩
    · rcases C with ⟨hf3, -⟩ | ⟨hf3, -⟩ | ⟨hf3, -⟩ | ⟨hf3, -⟩ | ⟨hf3, -⟩ <;>
      simp [hf, hf2, hf3] at hc
    · rcases C with ⟨hf3, -⟩ | ⟨hf3, -⟩ | ⟨hf3, -⟩ | ⟨hf3, -⟩ | ⟨hf3, -⟩ <;>
      simp [hf, hf2, hf3] at hc
    · refine ⟨[.lock, .isStarted false, .startup r1 .SOCK_SUCCESS, .isOpened false],
        .openSocket r2 b.status, en2,
        by simp [Event.isBeforeAttempt], Or.inr rfl, ?_, ?_⟩ <;>
      simp [hf, hf2, ht, ht2, events_append, events_cons, events_nil, Call.event,
        Event.stageStatus]
  · refine ⟨[.lock, .isStarted false], .startup r1 a.status, en1,
      by simp [Event.isBeforeAttempt], Or.inl rfl, ?_, ?_⟩ <;>
    simp [hf, ht, events_append, events_cons, events_nil, Call.event, Event.stageStatus]


theorem Event.isBeforeAttempt_quiet {e : Event} (hp : e.isBeforeAttempt = true) :
    e.isGetBuffer = false ∧ e.isSend = false ∧ e.isConnected = false ∧ e.isRecv = false ∧
    e.isDelay = false ∧ e.isOpen = false ∧
    (∀ st, e.stageStatus = some st → st = .SOCK_SUCCESS) := by
  cases e <;> simp_all [Event.isBeforeAttempt, Event.isGetBuffer, Event.isSend,
    Event.isConnected, Event.isRecv, Event.isDelay, Event.isOpen, Event.stageStatus]

/-- A pass that holds a `startup` or `open` answered with a status other than
success ends in `continue`. -/
theorem iteration_failed_attempt_continues {σ : Type} (E : Env σ) (status : SocketIpStatus)
    (s : SocketReadTask σ) (e : Event) (st : SocketIpStatus)
    (he : e ∈ events (iteration E status s).trace)
    (hk : e.isStartup = true ∨ e.isOpen = true)
    (hst : e.stageStatus = some st) (hne : st ≠ .SOCK_SUCCESS) :
    (iteration E status s).flow = .continued := by
  obtain ⟨pre, hpre, H⟩ := iteration_cases E status s
  have hnp : e ∉ pre := fun h => hne (Event.stageStatus_of_isPrelude (hpre e h) hst)
  rcases H with ⟨hf, -⟩ | ⟨hf, -⟩ | ⟨-, ht⟩ | ⟨-, b, -, ht⟩ |
    ⟨-, -, b, n, en1, en2, stop, -, ht⟩ | ⟨-, -, b, n, -, ht⟩
  · exact hf
  · exact hf
  all_goals
    rw [ht] at he
    rcases List.mem_append.mp he with he | he
    · exact absurd he hnp
    · simp only [List.mem_cons, List.mem_singleton, List.not_mem_nil, or_false] at he
      rcases he with rfl | rfl | rfl | rfl | rfl | rfl | rfl | rfl <;>
        simp [Event.isStartup, Event.isOpen] at hk

/-- C19. Interrupted startup or open.  When a pass holds a `startup` or `open`
call answered interrupted-try-again and `m_stop` is false as the loop
condition is evaluated: the pass ends in `continue` with that status; its
record is queries and at most a successful `startup`, then the interrupted
call, the warning, one delay of `SOCKET_RETRY_INTERVAL_MS` and the unlock; it
holds no `getBuffer`, no `sendBuffer`, no `recv` and no `connected()`; and the
loop condition is true whatever `m_reconnect` is, so the run goes on with the
rest of the loop. -/
theorem C19_interrupted_startup_or_open {σ : Type} (E : Env σ) (fuel : Nat)
    (status : SocketIpStatus) (s : SocketReadTask σ) (e : Event)
    (he : e ∈ events (iteration E status s).trace)
    (hk : e.isStartup = true ∨ e.isOpen = true)
    (hst : e.stageStatus = some .SOCK_INTERRUPTED_TRY_AGAIN)
    (hstop : (iteration E status s).self.m_stop = false) :
    (iteration E status s).flow = .continued ∧
    (iteration E status s).status = .SOCK_INTERRUPTED_TRY_AGAIN ∧
    (∃ pre en, (∀ x ∈ pre, x.isBeforeAttempt = true) ∧
      events (iteration E status s).trace =
        pre ++ [e, .logMsg (.failedToOpenPort .SOCK_INTERRUPTED_TRY_AGAIN en),
          .delay E.SOCKET_RETRY_INTERVAL_MS, .unlock]) ∧
    (∀ x ∈ events (iteration E status s).trace,
      x.isGetBuffer = false ∧ x.isSend = false ∧ x.isConnected = false ∧ x.isRecv = false) ∧
    (events (iteration E status s).trace).countP Event.isDelay = 1 ∧
    keepReceiving (iteration E status s).self (iteration E status s).status = true ∧
    (readLoop E (fuel + 1) status s).trace = (iteration E status s).trace ++
      (readLoop E fuel .SOCK_INTERRUPTED_TRY_AGAIN (iteration E status s).self).trace := by
  have hc := iteration_failed_attempt_continues E status s e _ he hk hst (by simp)
  obtain ⟨pre, e', en, hpre, hk', hst', ht⟩ := iteration_continued E status s hc
  have hee : e = e' := by
    rw [ht] at he
    rcases List.mem_append.mp he with he | he
    · have := (Event.isBeforeAttempt_quiet (hpre e he)).2.2.2.2.2.2 _ hst
      exact absurd this (by simp)
    · simp only [List.mem_cons, List.mem_singleton, List.not_mem_nil, or_false] at he
      rcases he with rfl | rfl | rfl | rfl
      · rfl
      · simp [Event.isStartup, Event.isOpen] at hk
      · simp [Event.isStartup, Event.isOpen] at hk
      · simp [Event.isStartup, Event.isOpen] at hk
  subst hee
  have hs : (iteration E status s).status = .SOCK_INTERRUPTED_TRY_AGAIN := by
    rw [hst] at hst'
    exact (Option.some.inj hst').symm
  rw [hs] at ht
  have hkeep : keepReceiving (iteration E status s).self (iteration E status s).status = true := by
    simp [keepReceiving, hstop, hs]
  have hflow : (iteration E status s).flow ≠ .assertFailed := by simp [hc]
  have hcountpre : pre.countP Event.isDelay = 0 := by
    rw [List.countP_eq_zero]
    intro x hx
    simp [(Event.isBeforeAttempt_quiet (hpre x hx)).2.2.2.2.1]
  have hed : e.isDelay = false := by
    rcases hk with hk | hk <;> cases e <;> simp_all [Event.isStartup, Event.isOpen, Event.isDelay]
  refine ⟨hc, hs, ⟨pre, en, hpre, ht⟩, ?_, ?_, hkeep, ?_⟩
  · intro x hx
    rw [ht] at hx
    rcases List.mem_append.mp hx with hx | hx
    · obtain ⟨h1, h2, h3, h4, -⟩ := Event.isBeforeAttempt_quiet (hpre x hx)
      exact ⟨h1, h2, h3, h4⟩
    · simp only [List.mem_cons, List.mem_singleton, List.not_mem_nil, or_false] at hx
      rcases hx with rfl | rfl | rfl | rfl
      · rcases hk with hk | hk <;> cases x <;>
          simp_all [Event.isStartup, Event.isOpen, Event.isGetBuffer, Event.isSend,
            Event.isConnected, Event.isRecv]
      all_goals simp [Event.isGetBuffer, Event.isSend, Event.isConnected, Event.isRecv]
  · rw [ht, List.countP_append, hcountpre]
    simp only [List.countP_cons, List.countP_nil, hed]
    simp [Event.isDelay]
  · rw [readLoop_continue E fuel status s hflow hkeep, hs]

/-- C19 on the scripted handler: reconnect off and the first `open` is
interrupted; the pass takes its delay and the loop goes on. -/
theorem C19_interrupted_startup_or_open_witness :
    (iteration scripted .SOCK_SUCCESS
      (Script.fresh false [] [.SOCK_INTERRUPTED_TRY_AGAIN] [] none)).flow = .continued ∧
    keepReceiving
      (iteration scripted .SOCK_SUCCESS
        (Script.fresh false [] [.SOCK_INTERRUPTED_TRY_AGAIN] [] none)).self
      (iteration scripted .SOCK_SUCCESS
        (Script.fresh false [] [.SOCK_INTERRUPTED_TRY_AGAIN] [] none)).status = true :=
  have h := C19_interrupted_startup_or_open scripted 3 .SOCK_SUCCESS
    (Script.fresh false [] [.SOCK_INTERRUPTED_TRY_AGAIN] [] none)
    (.openSocket false .SOCK_INTERRUPTED_TRY_AGAIN) (by decide) (Or.inr rfl) rfl (by decide)
  ⟨h.1, h.2.2.2.2.2.1⟩

end Drv
